import Mathlib

/-!
A verification development for the matcha template-materialization engine.

The Python sources are shallowly embedded:
* paths are lists of components (`os.path.join` is list append,
  `os.path.basename` is the last component);
* the filesystem is an explicit state: an association list from paths to
  file contents, a list of directories, and a list of directories that are
  read-only (writes into them raise the permission error);
* fallible filesystem primitives (`shutil.copy`, `shutil.rmtree`,
  `os.makedirs`, `open(...).write`) return `Except FSError FS`;
* `json.dump` on the flat variables dictionary is a real serializer with
  the escaping rules of Python's `json` module (`ensure_ascii=True`), and
  a flat-object parser is provided to state round-trip properties;
* console output (`print_status` / the status-message builders) is modelled
  as a list of structured events returned alongside the final state.
-/

abbrev FPath := List String

inductive FSError where
  | permission (p : FPath)
  | notFound (p : FPath)
  | fileExists (p : FPath)
deriving DecidableEq, Repr

/-- Errors escaping the two `build_template` implementations: the translated
`MatchaPermissionError` (naming the destination), or an untranslated
filesystem error. -/
inductive BuildError where
  | matchaPermission (destination : FPath)
  | fsError (e : FSError)
deriving DecidableEq, Repr

structure FS where
  files : List (FPath × String)
  dirs : List FPath
  readOnly : List FPath
deriving DecidableEq, Repr

def lookupIn : List (FPath × String) → FPath → Option String
  | [], _ => none
  | e :: rest, p => if e.1 = p then some e.2 else lookupIn rest p

def lookupFile (g : FS) (p : FPath) : Option String := lookupIn g.files p

/-- Replace the content stored at `p`, or append the entry if absent. -/
def setIn : List (FPath × String) → FPath → String → List (FPath × String)
  | [], p, c => [(p, c)]
  | e :: rest, p, c => if e.1 = p then (p, c) :: rest else e :: setIn rest p c

def memPath : List FPath → FPath → Bool
  | [], _ => false
  | d :: rest, p => if d = p then true else memPath rest p

def isDir (g : FS) (p : FPath) : Bool := memPath g.dirs p

/-- `os.path.exists`. -/
def pathExists (g : FS) (p : FPath) : Bool := isDir g p || (lookupFile g p).isSome

/-- `os.path.basename` on a component list. -/
def basename (p : FPath) : String := p.getLastD ""

/-- Writing a file: the parent directory must exist and be writable. -/
def writeFile (g : FS) (p : FPath) (c : String) : Except FSError FS :=
  if isDir g p.dropLast = false then .error (.notFound p)
  else if memPath g.readOnly p.dropLast then .error (.permission p)
  else .ok { g with files := setIn g.files p c }

/-- `shutil.copy`: read the source, write its content at the destination. -/
def copyFile (g : FS) (src dst : FPath) : Except FSError FS :=
  match lookupFile g src with
  | none => .error (.notFound src)
  | some c => writeFile g dst c

def mkdirOne (g : FS) (p : FPath) : Except FSError FS :=
  if isDir g p then .ok g
  else if (lookupFile g p).isSome then .error (.fileExists p)
  else if memPath g.readOnly p.dropLast then .error (.permission p)
  else .ok { g with dirs := p :: g.dirs }

def mkdirAll : FS → List FPath → Except FSError FS
  | g, [] => .ok g
  | g, q :: rest => (mkdirOne g q).bind fun g1 => mkdirAll g1 rest

/-- The nonempty prefixes of a path, shortest first. -/
def pathPrefixes (p : FPath) : List FPath :=
  (List.range p.length).map (fun i => p.take (i + 1))

/-- `os.makedirs(p, exist_ok=True)`: create every missing ancestor, then `p`. -/
def makedirs (g : FS) (p : FPath) : Except FSError FS := mkdirAll g (pathPrefixes p)

def filterNotUnder (l : List (FPath × String)) (d : FPath) : List (FPath × String) :=
  l.filter (fun e => !(d.isPrefixOf e.1))

/-- `shutil.rmtree`: remove the directory and everything below it. -/
def rmtree (g : FS) (p : FPath) : Except FSError FS :=
  if isDir g p = false then .error (.notFound p)
  else if memPath g.readOnly p.dropLast || memPath g.readOnly p then .error (.permission p)
  else .ok { g with files := filterNotUnder g.files p,
                    dirs := g.dirs.filter (fun d => !(p.isPrefixOf d)) }

/-- String prefix test on the underlying character lists. -/
def strHasPrefix (s pre : String) : Bool := pre.data.isPrefixOf s.data

/-- String suffix test on the underlying character lists. -/
def strHasSuffix (s suf : String) : Bool := suf.data.isSuffixOf s.data

/-- Join a list of strings with a separator. -/
def strJoinSep (sep : String) : List String → String
  | [] => ""
  | [x] => x
  | x :: rest => x ++ sep ++ strJoinSep sep rest

/-- Does filename `f` match the glob pattern `*.{ext}`?  Like Python's
`glob`, hidden files (leading dot) are not matched by a `*` pattern. -/
def globExtMatch (f ext : String) : Bool :=
  !strHasPrefix f "." && strHasSuffix f ("." ++ ext)

def globMatches (dir : FPath) (ext : String) (p : FPath) : Bool :=
  match p.getLast? with
  | none => false
  | some f => decide (p.dropLast = dir) && globExtMatch f ext

def globIn : List (FPath × String) → FPath → String → List FPath
  | [], _, _ => []
  | e :: rest, dir, ext =>
    if globMatches dir ext e.1 then e.1 :: globIn rest dir ext else globIn rest dir ext

/-- `glob.glob(os.path.join(dir, "*.{ext}"))`: the files directly inside
`dir` whose name matches `*.{ext}`, in filesystem enumeration order. -/
def glob (g : FS) (dir : FPath) (ext : String) : List FPath :=
  globIn g.files dir ext

/-- A generic sequence of `shutil.copy` operations (source, destination
pairs); each copy loop of the sources is an instance of this fold. -/
def foldCopy : FS → List (FPath × FPath) → Except FSError FS
  | g, [] => .ok g
  | g, (s, t) :: rest => (copyFile g s t).bind fun g1 => foldCopy g1 rest

/-- Structured console events (`print_status` and the prompt). -/
inductive Event where
  | status (msg : String)
  | substepSuccess (msg : String)
  | stepSuccess (msg : String)
  | confirmAsked (question : String)
deriving DecidableEq, Repr

def pathStr (p : FPath) : String := strJoinSep "/" p

/-- Well-formed filesystem: every strict, nonempty prefix of a file's path
is a directory. -/
def FS.wf (g : FS) : Prop :=
  ∀ e ∈ g.files, ∀ n ∈ List.range e.1.length, 0 < n → e.1.take n ∈ g.dirs

namespace AzureTemplate

def SUBMODULE_NAMES : List FPath :=
  [["aks"],
   ["resource_group"],
   ["mlflow_module"],
   ["storage"],
   ["seldon"],
   ["zenml_storage"],
   ["zen_server"],
   ["azure_container_registry"],
   ["zen_server", "zenml_helm"],
   ["zen_server", "zenml_helm", "templates"]]

def ALLOWED_EXTENSIONS : List String := ["tf", "yaml", "tpl"]

structure TemplateVariables where
  location : String
  pfx : String
  password : String
deriving DecidableEq, Repr

/-- `dataclasses.asdict`: the fields in declaration order. -/
def TemplateVariables.asdict (c : TemplateVariables) : List (String × String) :=
  [("location", c.location), ("prefix", c.pfx), ("password", c.password)]

/-- Modelled from the spec: the status-message builder
`build_resource_confirmation` lives in `matcha_ml.cli.ui`, which is not
under `src/`; it renders a header plus the resource-category summaries. -/
def build_resource_confirmation (header : String) (resources : List (String × String)) : String :=
  header ++ ": " ++ strJoinSep ", " (resources.map (fun r => r.1 ++ " - " ++ r.2))

def azureResourceSummary : List (String × String) :=
  [("Resource group", "A resource group"),
   ("Azure Kubernetes Service (AKS)", "A kubernetes cluster"),
   ("Two Storage Containers",
    "A storage container for experiment tracking artifacts and a second for model training artifacts"),
   ("Seldon Core", "A framework for model deployment on top of a kubernetes cluster"),
   ("Azure Container Registry", "A container registry for storing docker images"),
   ("ZenServer", "A zenml server required for remote orchestration")]

def overrideQuestion : String :=
  "If you choose to override the existing configuration, the existing configuration will be deleted. Otherwise, the configuration will be reused.\n\nDo you want to override the existing configuration?"

/-- `reuse_configuration`: if the path exists, print the confirmation
summary and ask the collaborator whether to override; the decision to
reuse is the negation of the collaborator's answer.  If the path does not
exist, return `false` without any interaction.  The returned list is the
sequence of console interactions. -/
def reuse_configuration (g : FS) (path : FPath) (answerOverride : Bool) : Bool × List Event :=
  if pathExists g path then
    (!answerOverride,
     [Event.status (build_resource_confirmation
        "Matcha has detected that the following resources have already been configured for provisioning"
        azureResourceSummary),
      Event.confirmAsked overrideQuestion])
  else (false, [])

def build_template_configuration (location pfx password : String) : TemplateVariables :=
  { location := location, pfx := pfx, password := password }

/-- The destination path of one copied file:
`destination[/sub_folder_path]/basename(source)`. -/
def copyTarget (destination sub_folder_path : FPath) (src : FPath) : FPath :=
  if sub_folder_path ≠ [] then destination ++ sub_folder_path ++ [basename src]
  else destination ++ [basename src]

/-- `copy_files`. -/
def copy_files (g : FS) (files : List FPath) (destination : FPath) (sub_folder_path : FPath) :
    Except FSError FS :=
  match files with
  | [] => .ok g
  | source_path :: rest =>
    (copyFile g source_path (copyTarget destination sub_folder_path source_path)).bind fun g1 =>
      copy_files g1 rest destination sub_folder_path

def main_module_filenames : List String := [".gitignore", ".terraform.lock.hcl"]

/-- The `for filename in main_module_filenames` copy loop. -/
def copyMainFiles (g : FS) (names : List String) (template_src destination : FPath) :
    Except FSError FS :=
  match names with
  | [] => .ok g
  | n :: rest =>
    (copyFile g (template_src ++ [n]) (destination ++ [n])).bind fun g1 =>
      copyMainFiles g1 rest template_src destination

/-- The `for ext in ALLOWED_EXTENSIONS` loop of one sub-module: glob the
sub-module's source directory for each allowed extension and copy the
matches. -/
def copyAllowedExts (g : FS) (exts : List String) (template_src destination sub : FPath) :
    Except FSError FS :=
  match exts with
  | [] => .ok g
  | ext :: rest =>
    (copy_files g (glob g (template_src ++ sub) ext) destination sub).bind fun g1 =>
      copyAllowedExts g1 rest template_src destination sub

def moduleCopiedEvent (sub : FPath) : Event :=
  Event.substepSuccess (pathStr sub ++ " module configuration was copied")

/-- The `for submodule_name in SUBMODULE_NAMES` loop: create the
destination sub-directory, copy every allowed-extension file, emit one
verbose event per sub-module. -/
def submodulesRun (g : FS) (names : List FPath) (template_src destination : FPath) (verbose : Bool) :
    Except FSError (FS × List Event) :=
  match names with
  | [] => .ok (g, [])
  | sub :: rest =>
    (makedirs g (destination ++ sub)).bind fun g1 =>
    (copyAllowedExts g1 ALLOWED_EXTENSIONS template_src destination sub).bind fun g2 =>
    (submodulesRun g2 rest template_src destination verbose).map fun pr =>
      (pr.1, (if verbose then [moduleCopiedEvent sub] else []) ++ pr.2)

def tfvarsName : String := "terraform.tfvars.json"

def lbrace : Char := '\x7b'
def rbrace : Char := '\x7d'

def hexDigit (n : Nat) : Char :=
  if n < 10 then Char.ofNat (48 + n) else Char.ofNat (87 + n)

/-- `\uXXXX` escape for code unit `n` (lowercase hex, as Python emits). -/
def uEscape (n : Nat) : List Char :=
  ['\\', 'u', hexDigit (n / 4096 % 16), hexDigit (n / 256 % 16),
   hexDigit (n / 16 % 16), hexDigit (n % 16)]

/-- JSON string escaping as Python's `json.dump` performs it with its
default `ensure_ascii=True`: shorthand escapes for the usual control
characters, `\uXXXX` for other control and all non-ASCII characters
(surrogate pairs above the BMP), everything in `0x20`–`0x7e` literal. -/
def jsonEscapeChar (c : Char) : List Char :=
  if c = '"' then ['\\', '"']
  else if c = '\\' then ['\\', '\\']
  else if c = '\n' then ['\\', 'n']
  else if c = '\t' then ['\\', 't']
  else if c = '\r' then ['\\', 'r']
  else if c = '\x08' then ['\\', 'b']
  else if c = '\x0c' then ['\\', 'f']
  else if c.toNat < 32 then uEscape c.toNat
  else if c.toNat < 127 then [c]
  else if c.toNat < 65536 then uEscape c.toNat
  else uEscape (55296 + (c.toNat - 65536) / 1024) ++ uEscape (56320 + (c.toNat - 65536) % 1024)

def jsonQuote (s : String) : String :=
  String.mk ('"' :: (s.data.flatMap jsonEscapeChar) ++ ['"'])

/-- `json.dump` of a flat string-to-string dictionary (Python's default
separators: `", "` between members, `": "` after keys). -/
def jsonDump (kvs : List (String × String)) : String :=
  String.mk [lbrace] ++
    strJoinSep ", " (kvs.map (fun kv => jsonQuote kv.1 ++ ": " ++ jsonQuote kv.2)) ++
    String.mk [rbrace]

def parseHexDigit (c : Char) : Option Nat :=
  if '0' ≤ c ∧ c ≤ '9' then some (c.toNat - 48)
  else if 'a' ≤ c ∧ c ≤ 'f' then some (c.toNat - 87)
  else if 'A' ≤ c ∧ c ≤ 'F' then some (c.toNat - 55)
  else none

def parseU4 : List Char → Option (Nat × List Char)
  | a :: b :: c :: d :: rest => do
    let x1 ← parseHexDigit a
    let x2 ← parseHexDigit b
    let x3 ← parseHexDigit c
    let x4 ← parseHexDigit d
    some (x1 * 4096 + x2 * 256 + x3 * 16 + x4, rest)
  | _ => none

/-- Parse the remainder of a JSON string literal (the opening quote already
consumed), handling escapes including surrogate pairs.  Fuel-indexed. -/
def parseJStringAux : Nat → List Char → Option (List Char × List Char)
  | 0, _ => none
  | _ + 1, [] => none
  | fuel + 1, c :: rest =>
    if c = '"' then some ([], rest)
    else if c = '\\' then
      match rest with
      | [] => none
      | e :: rest2 =>
        if e = 'u' then
          match parseU4 rest2 with
          | none => none
          | some (n, rest3) =>
            if 55296 ≤ n ∧ n < 56320 then
              match rest3 with
              | '\\' :: 'u' :: rest4 =>
                match parseU4 rest4 with
                | some (m, rest5) =>
                  if 56320 ≤ m ∧ m < 57344 then
                    (parseJStringAux fuel rest5).map fun pr =>
                      (Char.ofNat (65536 + (n - 55296) * 1024 + (m - 56320)) :: pr.1, pr.2)
                  else none
                | none => none
              | _ => none
            else
              (parseJStringAux fuel rest3).map fun pr => (Char.ofNat n :: pr.1, pr.2)
        else
          match (if e = '"' then some '"'
                 else if e = '\\' then some '\\'
                 else if e = '/' then some '/'
                 else if e = 'n' then some '\n'
                 else if e = 't' then some '\t'
                 else if e = 'r' then some '\r'
                 else if e = 'b' then some '\x08'
                 else if e = 'f' then some '\x0c'
                 else none) with
          | none => none
          | some d => (parseJStringAux fuel rest2).map fun pr => (d :: pr.1, pr.2)
    else (parseJStringAux fuel rest).map fun pr => (c :: pr.1, pr.2)

def skipWs : List Char → List Char
  | [] => []
  | c :: rest => if c = ' ' ∨ c = '\n' ∨ c = '\t' ∨ c = '\r' then skipWs rest else c :: rest

/-- Parse the members of a flat JSON object whose values are all strings:
`"key": "value"` pairs separated by commas, ending at the closing brace. -/
def parseMembers : Nat → List Char → Option (List (String × String) × List Char)
  | 0, _ => none
  | fuel + 1, input =>
    match skipWs input with
    | '"' :: rest => do
      let (key, rest1) ← parseJStringAux rest.length rest
      match skipWs rest1 with
      | ':' :: rest2 =>
        match skipWs rest2 with
        | '"' :: rest3 => do
          let (val, rest4) ← parseJStringAux rest3.length rest3
          match skipWs rest4 with
          | ',' :: rest5 => do
            let (more, rest6) ← parseMembers fuel rest5
            some ((String.mk key, String.mk val) :: more, rest6)
          | c :: rest5 =>
            if c = rbrace then some ([(String.mk key, String.mk val)], rest5) else none
          | [] => none
        | _ => none
      | _ => none
    | _ => none

/-- Parse a flat JSON object all of whose values are strings.  Returns the
key/value pairs in textual order, or `none` if the input is not such an
object. -/
def parseFlatJson (s : String) : Option (List (String × String)) :=
  match skipWs s.data with
  | c :: rest =>
    if c = lbrace then
      match skipWs rest with
      | c2 :: rest2 =>
        if c2 = rbrace then (if skipWs rest2 = [] then some [] else none)
        else
          match parseMembers (c2 :: rest2).length (c2 :: rest2) with
          | some (kvs, rest3) => if skipWs rest3 = [] then some kvs else none
          | none => none
      | [] => none
    else none
  | [] => none

def buildingEvent : Event := Event.status "\nBuilding configuration template..."

def ensureDirEvent (destination : FPath) : Event :=
  Event.substepSuccess ("Ensure template destination directory: " ++ pathStr destination)

/-- The body of `build_template`'s `try:` block, as a state transformer;
on success it also yields the sequence of emitted console events. -/
def coreRun (config : TemplateVariables) (template_src destination : FPath) (verbose : Bool)
    (g : FS) : Except FSError (FS × List Event) :=
  ((if pathExists g destination then rmtree g destination else .ok g).bind fun g1 =>
   (makedirs g1 destination).bind fun g2 =>
   (copyMainFiles g2 main_module_filenames template_src destination).bind fun g3 =>
   (copy_files g3 (glob g3 template_src "tf") destination []).bind fun g4 =>
   (submodulesRun g4 SUBMODULE_NAMES template_src destination verbose).bind fun pr =>
   (writeFile pr.1 (destination ++ [tfvarsName]) (jsonDump config.asdict)).map fun g6 =>
   (g6,
    [buildingEvent]
    ++ (if verbose then [ensureDirEvent destination] else [])
    ++ pr.2
    ++ (if verbose then [Event.substepSuccess "Configuration was copied"] else [])
    ++ (if verbose then [Event.substepSuccess "Template variables were added."] else [])))

def finishedEvents (destination : FPath) (verbose : Bool) : List Event :=
  (if verbose then [Event.substepSuccess "Template configuration has finished!"] else [])
  ++ [Event.stepSuccess ("The configuration template was written to " ++ pathStr destination)]

/-- `build_template`: run the body; a `PermissionError` raised anywhere in
it is translated into the `MatchaPermissionError` naming the destination,
every other error propagates unchanged. -/
def build_template (config : TemplateVariables) (template_src destination : FPath)
    (verbose : Bool) (g : FS) : Except BuildError (FS × List Event) :=
  match coreRun config template_src destination verbose g with
  | .error (.permission _) => .error (.matchaPermission destination)
  | .error e => .error (.fsError e)
  | .ok (g', log) => .ok (g', log ++ finishedEvents destination verbose)

/-- All destination paths the manifest materializes from filesystem `g`:
the fixed auxiliary files, the root `*.tf` files, each sub-module's
allowed-extension files, and the variables file. -/
def manifestCopyTargets (g : FS) (template_src destination : FPath) : List FPath :=
  main_module_filenames.map (fun n => destination ++ [n])
  ++ (glob g template_src "tf").map (fun s => destination ++ [basename s])
  ++ SUBMODULE_NAMES.flatMap (fun sub =>
       ALLOWED_EXTENSIONS.flatMap (fun ext =>
         (glob g (template_src ++ sub) ext).map (fun s => destination ++ sub ++ [basename s])))
  ++ [destination ++ [tfvarsName]]

end AzureTemplate

/-- Modelled from the spec: the CLI orchestration that wires
`reuse_configuration` in front of `build_template` is not under `src/`
(only the two functions are); per §4.4 the orchestrator consults the reuse
decision, and when it answers "reuse" it emits a reused-configuration
event and stops without touching any file. -/
def provisionWithReuseDecision (answerOverride : Bool) (config : AzureTemplate.TemplateVariables)
    (template_src destination : FPath) (verbose : Bool) (g : FS) :
    Except BuildError (FS × List Event) :=
  if (AzureTemplate.reuse_configuration g destination answerOverride).1 then
    .ok (g, (AzureTemplate.reuse_configuration g destination answerOverride).2
      ++ [Event.stepSuccess "Matcha reused the existing configuration"])
  else
    match AzureTemplate.build_template config template_src destination verbose g with
    | .ok (g', log) =>
      .ok (g', (AzureTemplate.reuse_configuration g destination answerOverride).2 ++ log)
    | .error e => .error e

namespace Provision

def SUBMODULE_NAMES : List FPath := [["aks"], ["resource_group"], ["mlflow-module"], ["storage"]]

structure TemplateVariables where
  location : String
  pfx : String
deriving DecidableEq, Repr

/-- `dataclasses.asdict`: the fields in declaration order. -/
def TemplateVariables.asdict (c : TemplateVariables) : List (String × String) :=
  [("location", c.location), ("prefix", c.pfx)]

/-- The `for source_path in glob.glob(...)` loop over root `*.tf` files. -/
def copyRootTfFiles (g : FS) (paths : List FPath) (destination : FPath) : Except FSError FS :=
  match paths with
  | [] => .ok g
  | p :: rest =>
    (copyFile g p (destination ++ [basename p])).bind fun g1 =>
      copyRootTfFiles g1 rest destination

/-- The inner loop of one sub-module: for each globbed path, re-join the
source as `template_src/submodule/filename` and copy it to
`destination/submodule/filename`. -/
def copySubmoduleFiles (g : FS) (paths : List FPath) (template_src destination sub : FPath) :
    Except FSError FS :=
  match paths with
  | [] => .ok g
  | p :: rest =>
    (copyFile g (template_src ++ sub ++ [basename p]) (destination ++ sub ++ [basename p])).bind
      fun g1 => copySubmoduleFiles g1 rest template_src destination sub

def submodulesRun (g : FS) (names : List FPath) (template_src destination : FPath) :
    Except FSError FS :=
  match names with
  | [] => .ok g
  | sub :: rest =>
    (makedirs g (destination ++ sub)).bind fun g1 =>
    (copySubmoduleFiles g1 (glob g1 (template_src ++ sub) "tf") template_src destination sub).bind
      fun g2 => submodulesRun g2 rest template_src destination

/-- The body of provision.py's `build_template` `try:` block.  Unlike the
azure_template version there is no existence check and no `rmtree`. -/
def coreRun (config : TemplateVariables) (template_src destination : FPath) (g : FS) :
    Except FSError FS :=
  (makedirs g destination).bind fun g1 =>
  (AzureTemplate.copyMainFiles g1 AzureTemplate.main_module_filenames template_src destination).bind
    fun g2 =>
  (copyRootTfFiles g2 (glob g2 template_src "tf") destination).bind fun g3 =>
  (submodulesRun g3 SUBMODULE_NAMES template_src destination).bind fun g4 =>
  writeFile g4 (destination ++ [AzureTemplate.tfvarsName]) (AzureTemplate.jsonDump config.asdict)

/-- provision.py's `build_template` (state part): permission errors become
`MatchaPermissionError(path=destination)`, others propagate. -/
def build_template (config : TemplateVariables) (template_src destination : FPath) (g : FS) :
    Except BuildError FS :=
  match coreRun config template_src destination g with
  | .error (.permission _) => .error (.matchaPermission destination)
  | .error e => .error (.fsError e)
  | .ok g' => .ok g'

/-- Every filename this implementation copies from source tree `g`. -/
def copiedFilenames (g : FS) (template_src : FPath) : List String :=
  AzureTemplate.main_module_filenames
  ++ (glob g template_src "tf").map basename
  ++ SUBMODULE_NAMES.flatMap (fun sub => (glob g (template_src ++ sub) "tf").map basename)

end Provision

namespace GlobalParameters

/-- Modelled from the spec: `matcha_ml/services/global_parameters_service.py`
is not under `src/` (only its tests are).  The persisted record has exactly
`user_id` and `analytics_opt_out`. -/
structure GlobalConfigRecord where
  user_id : String
  analytics_opt_out : Bool
deriving DecidableEq, Repr

/-- Modelled from the spec: process-wide state — the cached singleton
instance plus the filesystem holding the backing YAML file. -/
structure ProcessState where
  cached : Option GlobalConfigRecord
  fs : FS
deriving DecidableEq, Repr

def serializeRecord (r : GlobalConfigRecord) : String :=
  "user_id: " ++ r.user_id ++ "\nanalytics_opt_out: "
    ++ (if r.analytics_opt_out then "true" else "false")

def parseRecord (s : String) : Option GlobalConfigRecord :=
  match s.splitOn "\n" with
  | [l1, l2] =>
    if strHasPrefix l1 "user_id: " then
      let uid := l1.drop 9
      if l2 = "analytics_opt_out: true" then some { user_id := uid, analytics_opt_out := true }
      else if l2 = "analytics_opt_out: false" then
        some { user_id := uid, analytics_opt_out := false }
      else none
    else none
  | _ => none

inductive GPError where
  | matchaPermission (p : FPath)
  | fsError (e : FSError)
  | malformedRecord (content : String)
deriving DecidableEq, Repr

/-- Modelled from the spec (§4.5): `instance()` returns the cached
process-wide object when present; otherwise it loads the backing file if
it exists (surfacing a parse error on malformed content), or creates the
parent directories and a fresh record (`freshId`, opt-out false), writes
it through, and caches it.  A permission failure surfaces as the
distinguished error and nothing is cached. -/
def instanceCall (s : ProcessState) (configPath : FPath) (freshId : String) :
    Except GPError (GlobalConfigRecord × ProcessState) :=
  match s.cached with
  | some r => .ok (r, s)
  | none =>
    match lookupFile s.fs configPath with
    | some content =>
      match parseRecord content with
      | some r => .ok (r, { s with cached := some r })
      | none => .error (.malformedRecord content)
    | none =>
      match (makedirs s.fs configPath.dropLast).bind fun g1 =>
            writeFile g1 configPath
              (serializeRecord { user_id := freshId, analytics_opt_out := false }) with
      | .error (.permission p) => .error (.matchaPermission p)
      | .error e => .error (.fsError e)
      | .ok g2 =>
        let r : GlobalConfigRecord := { user_id := freshId, analytics_opt_out := false }
        .ok (r, { cached := some r, fs := g2 })

end GlobalParameters

/-! Concrete fixtures used by the witnesses. -/

/-- A small template source tree at `["t"]` with the two auxiliary files,
one root `*.tf` file and one `aks` sub-module file. -/
def fixtureFS : FS :=
  { files :=
      [(["t", ".gitignore"], "gi"),
       (["t", ".terraform.lock.hcl"], "lock"),
       (["t", "main.tf"], "root module"),
       (["t", "aks", "cluster.tf"], "aks module")],
    dirs := [["t"], ["t", "aks"]],
    readOnly := [] }

/-- The fixture tree with a pre-existing destination `["d"]` holding a
stale file and an old variables file. -/
def fixtureFSWithDest : FS :=
  { fixtureFS with
      files := fixtureFS.files ++
        [(["d", "stale.txt"], "old junk"), (["d", AzureTemplate.tfvarsName], "old vars")],
      dirs := fixtureFS.dirs ++ [["d"]] }

/-- A filesystem whose root is read-only, so that creating `["d"]` fails. -/
def fixtureReadOnlyFS : FS :=
  { files := [(["t", ".gitignore"], "gi")], dirs := [["t"]], readOnly := [[]] }

def fixtureConfig : AzureTemplate.TemplateVariables :=
  { location := "uksouth", pfx := "matcha", password := "s3cr3t" }

/-- The full event sequence of a successful verbose azure `build_template`
run: the sub-module events appear in manifest order. -/
def AzureTemplate.buildLogVerbose (destination : FPath) : List Event :=
  [AzureTemplate.buildingEvent, AzureTemplate.ensureDirEvent destination]
  ++ AzureTemplate.SUBMODULE_NAMES.map AzureTemplate.moduleCopiedEvent
  ++ [Event.substepSuccess "Configuration was copied",
      Event.substepSuccess "Template variables were added.",
      Event.substepSuccess "Template configuration has finished!",
      Event.stepSuccess ("The configuration template was written to " ++ pathStr destination)]

/-- Two source files with the same basename in different directories. -/
def cexFS : FS :=
  { files := [(["a", "x.tf"], "A"), (["b", "x.tf"], "B")],
    dirs := [["a"], ["b"], ["d"]],
    readOnly := [] }

def emptyProcState : GlobalParameters.ProcessState :=
  { cached := none, fs := { files := [], dirs := [], readOnly := [] } }

def gpConfigPath : FPath := ["home", ".config", "matcha-ml", "config.yaml"]

/-! ### Basic lemmas about the embedding primitives -/

theorem except_bind_ok {ε α β : Type} (m : Except ε α) (f : α → Except ε β) (b : β) :
    m.bind f = .ok b ↔ ∃ a, m = .ok a ∧ f a = .ok b := by
  cases m <;> simp [Except.bind]

theorem except_bind_error {ε α β : Type} (m : Except ε α) (f : α → Except ε β) (e : ε) :
    m.bind f = .error e ↔ m = .error e ∨ ∃ a, m = .ok a ∧ f a = .error e := by
  cases m <;> simp [Except.bind]

theorem except_map_ok {ε α β : Type} (m : Except ε α) (f : α → β) (b : β) :
    m.map f = .ok b ↔ ∃ a, m = .ok a ∧ f a = b := by
  cases m <;> simp [Except.map]

theorem memPath_iff (l : List FPath) (p : FPath) : memPath l p = true ↔ p ∈ l := by
  induction l with
  | nil => simp [memPath]
  | cons d rest ih =>
    by_cases h : d = p
    · simp [memPath, h]
    · have h' : ¬ p = d := fun he => h he.symm
      simp [memPath, h, ih, h']

theorem lookupIn_setIn_self (l : List (FPath × String)) (p : FPath) (c : String) :
    lookupIn (setIn l p c) p = some c := by
  induction l with
  | nil => simp [setIn, lookupIn]
  | cons e rest ih =>
    by_cases h : e.1 = p <;> simp [setIn, lookupIn, h, ih]

theorem lookupIn_setIn_other (l : List (FPath × String)) (p q : FPath) (c : String)
    (h : q ≠ p) : lookupIn (setIn l p c) q = lookupIn l q := by
  induction l with
  | nil =>
    simp [setIn, lookupIn]
    exact fun he => h he.symm
  | cons e rest ih =>
    by_cases he : e.1 = p
    · simp [setIn, lookupIn, he, Ne.symm h, h]
    · simp [setIn, lookupIn, he, ih]

theorem lookupIn_some_mem (l : List (FPath × String)) (q : FPath) (c : String)
    (h : lookupIn l q = some c) : (q, c) ∈ l := by
  induction l with
  | nil => simp [lookupIn] at h
  | cons e rest ih =>
    by_cases he : e.1 = q
    · simp [lookupIn, he] at h
      have hept : e = (q, c) := by
        obtain ⟨e1, e2⟩ := e
        simp at he h
        simp [he, h]
      rw [hept]
      exact List.mem_cons_self _ _
    · simp [lookupIn, he] at h
      exact List.mem_cons_of_mem _ (ih h)

theorem basename_append (xs : FPath) (f : String) : basename (xs ++ [f]) = f := by
  simp [basename, List.getLastD_concat]

theorem ne_of_basename_ne (p q : FPath) (h : basename p ≠ basename q) : p ≠ q := by
  intro he; exact h (he ▸ rfl)

/-- `writeFile` success: unfold to the record update. -/
theorem writeFile_ok_eq (g : FS) (p : FPath) (c : String) (g' : FS)
    (h : writeFile g p c = .ok g') : g' = { g with files := setIn g.files p c } := by
  unfold writeFile at h
  split at h
  · cases h
  · split at h
    · cases h
    · cases h; rfl

theorem writeFile_ok_lookup_self (g : FS) (p : FPath) (c : String) (g' : FS)
    (h : writeFile g p c = .ok g') : lookupFile g' p = some c := by
  rw [writeFile_ok_eq g p c g' h]
  exact lookupIn_setIn_self g.files p c

theorem writeFile_ok_lookup_other (g : FS) (p : FPath) (c : String) (g' : FS)
    (h : writeFile g p c = .ok g') (q : FPath) (hq : q ≠ p) :
    lookupFile g' q = lookupFile g q := by
  rw [writeFile_ok_eq g p c g' h]
  exact lookupIn_setIn_other g.files p q c hq

theorem writeFile_ok_isSome (g : FS) (p : FPath) (c : String) (g' : FS)
    (h : writeFile g p c = .ok g') (q : FPath) (hs : (lookupFile g q).isSome) :
    (lookupFile g' q).isSome := by
  by_cases hq : q = p
  · subst hq; rw [writeFile_ok_lookup_self g q c g' h]; rfl
  · rw [writeFile_ok_lookup_other g p c g' h q hq]; exact hs

theorem writeFile_ok_dirs (g : FS) (p : FPath) (c : String) (g' : FS)
    (h : writeFile g p c = .ok g') : g'.dirs = g.dirs := by
  rw [writeFile_ok_eq g p c g' h]

theorem copyFile_ok_iff (g : FS) (s t : FPath) (g' : FS) :
    copyFile g s t = .ok g' ↔ ∃ c, lookupFile g s = some c ∧ writeFile g t c = .ok g' := by
  unfold copyFile
  cases h : lookupFile g s <;> simp

/-! ### Prefix and glob lemmas -/

theorem isPrefixOf_append (d r : FPath) : d.isPrefixOf (d ++ r) = true := by
  rw [List.isPrefixOf_iff_prefix]
  exact List.prefix_append d r

/-- If neither of two paths is a prefix of the other, nothing inside the
first subtree lies inside the second. -/
theorem sep_not_under (ts d : FPath) (hsep1 : ts.isPrefixOf d = false)
    (hsep2 : d.isPrefixOf ts = false) (t : FPath) :
    d.isPrefixOf (ts ++ t) = false := by
  cases hb : d.isPrefixOf (ts ++ t) with
  | false => rfl
  | true =>
    exfalso
    rw [List.isPrefixOf_iff_prefix] at hb
    have hts : ts <+: ts ++ t := List.prefix_append ts t
    rcases List.prefix_or_prefix_of_prefix hb hts with h1 | h1
    · rw [← List.isPrefixOf_iff_prefix] at h1
      rw [h1] at hsep2
      cases hsep2
    · rw [← List.isPrefixOf_iff_prefix] at h1
      rw [h1] at hsep1
      cases hsep1

theorem take_eq_of_isPrefixOf (d p : FPath) (h : d.isPrefixOf p = true) :
    p.take d.length = d := by
  rw [List.isPrefixOf_iff_prefix] at h
  exact (List.prefix_iff_eq_take.mp h).symm

theorem globMatches_decomp (dir : FPath) (ext : String) (p : FPath)
    (h : globMatches dir ext p = true) : p = dir ++ [basename p] := by
  unfold globMatches at h
  cases hl : p.getLast? with
  | none => rw [hl] at h; cases h
  | some f =>
    rw [hl] at h
    have hd : p.dropLast = dir := by
      have hand := (Bool.and_eq_true _ _).mp h
      exact of_decide_eq_true hand.1
    have hb : basename p = f := by
      simp [basename, List.getLastD_eq_getLast?, hl]
    have hp : p.dropLast ++ [f] = p :=
      List.dropLast_append_getLast? f (Option.mem_def.mpr hl)
    rw [hb, ← hd, hp]

theorem globIn_setIn (l : List (FPath × String)) (p : FPath) (c : String)
    (dir : FPath) (ext : String) (h : globMatches dir ext p = false) :
    globIn (setIn l p c) dir ext = globIn l dir ext := by
  induction l with
  | nil => simp [setIn, globIn, h]
  | cons e rest ih =>
    by_cases he : e.1 = p
    · simp [setIn, he, globIn, h]
    · by_cases hm : globMatches dir ext e.1 <;> simp [setIn, he, globIn, hm, ih]

theorem globIn_filterNotUnder (l : List (FPath × String)) (d dir : FPath) (ext : String)
    (hdir : ∀ f : String, d.isPrefixOf (dir ++ [f]) = false) :
    globIn (filterNotUnder l d) dir ext = globIn l dir ext := by
  induction l with
  | nil => simp [filterNotUnder, globIn]
  | cons e rest ih =>
    unfold filterNotUnder at *
    by_cases hm : globMatches dir ext e.1
    · have hnu : d.isPrefixOf e.1 = false := by
        rw [globMatches_decomp dir ext e.1 hm]
        exact hdir (basename e.1)
      simp [globIn, hm, hnu, ih]
    · by_cases hu : d.isPrefixOf e.1 <;> simp [globIn, hm, hu, ih]

/-- Files outside the destination subtree determine every glob whose
directory lies outside that subtree. -/
theorem glob_eq_of_filter_eq (g g0 : FS) (d dir : FPath) (ext : String)
    (hf : filterNotUnder g.files d = filterNotUnder g0.files d)
    (hdir : ∀ f : String, d.isPrefixOf (dir ++ [f]) = false) :
    glob g dir ext = glob g0 dir ext := by
  unfold glob
  rw [← globIn_filterNotUnder g.files d dir ext hdir, hf,
    globIn_filterNotUnder g0.files d dir ext hdir]

theorem filterNotUnder_setIn (l : List (FPath × String)) (p : FPath) (c : String)
    (d : FPath) (hd : d.isPrefixOf p = true) :
    filterNotUnder (setIn l p c) d = filterNotUnder l d := by
  induction l with
  | nil => simp [setIn, filterNotUnder, hd]
  | cons e rest ih =>
    by_cases he : e.1 = p
    · simp [setIn, he, filterNotUnder, hd]
    · unfold filterNotUnder at *
      by_cases hu : d.isPrefixOf e.1 <;> simp [setIn, he, hu, ih]

theorem writeFile_ok_filter (g : FS) (p : FPath) (c : String) (g' : FS)
    (h : writeFile g p c = .ok g') (d : FPath) (hd : d.isPrefixOf p = true) :
    filterNotUnder g'.files d = filterNotUnder g.files d := by
  rw [writeFile_ok_eq g p c g' h]
  exact filterNotUnder_setIn g.files p c d hd

theorem lookupIn_filterNotUnder_under (l : List (FPath × String)) (d q : FPath)
    (hq : d.isPrefixOf q = true) : lookupIn (filterNotUnder l d) q = none := by
  induction l with
  | nil => simp [filterNotUnder, lookupIn]
  | cons e rest ih =>
    unfold filterNotUnder at *
    by_cases hu : d.isPrefixOf e.1
    · simp [hu, ih]
    · have hne : e.1 ≠ q := by
        intro he; rw [he] at hu; exact hu hq
      simp [hu, lookupIn, hne, ih]

theorem filterNotUnder_idem (l : List (FPath × String)) (d : FPath) :
    filterNotUnder (filterNotUnder l d) d = filterNotUnder l d := by
  unfold filterNotUnder
  rw [List.filter_filter]
  simp

/-! ### `mkdir` / `rmtree` lemmas -/

theorem mkdirOne_ok_files (g : FS) (p : FPath) (g' : FS) (h : mkdirOne g p = .ok g') :
    g'.files = g.files := by
  unfold mkdirOne at h
  split at h
  · cases h; rfl
  · split at h
    · cases h
    · split at h
      · cases h
      · cases h; rfl

theorem mkdirOne_ok_dirs (g : FS) (p : FPath) (g' : FS) (h : mkdirOne g p = .ok g')
    (q : FPath) (hq : q ∈ g.dirs) : q ∈ g'.dirs := by
  unfold mkdirOne at h
  split at h
  · cases h; exact hq
  · split at h
    · cases h
    · split at h
      · cases h
      · cases h; exact List.mem_cons_of_mem _ hq

theorem mkdirOne_ok_self (g : FS) (p : FPath) (g' : FS) (h : mkdirOne g p = .ok g') :
    p ∈ g'.dirs := by
  unfold mkdirOne at h
  split at h
  · cases h
    next hd => exact (memPath_iff _ _).mp hd
  · split at h
    · cases h
    · split at h
      · cases h
      · cases h; exact List.mem_cons_self _ _

theorem mkdirAll_ok_files (l : List FPath) : ∀ g g' : FS, mkdirAll g l = .ok g' →
    g'.files = g.files := by
  induction l with
  | nil => intro g g' h; cases h; rfl
  | cons q rest ih =>
    intro g g' h
    rw [mkdirAll, except_bind_ok] at h
    obtain ⟨g1, h1, h2⟩ := h
    rw [ih g1 g' h2, mkdirOne_ok_files g q g1 h1]

theorem mkdirAll_ok_dirs (l : List FPath) : ∀ g g' : FS, mkdirAll g l = .ok g' →
    ∀ q ∈ g.dirs, q ∈ g'.dirs := by
  induction l with
  | nil => intro g g' h q hq; cases h; exact hq
  | cons x rest ih =>
    intro g g' h q hq
    rw [mkdirAll, except_bind_ok] at h
    obtain ⟨g1, h1, h2⟩ := h
    exact ih g1 g' h2 q (mkdirOne_ok_dirs g x g1 h1 q hq)

theorem mkdirAll_ok_all (l : List FPath) : ∀ g g' : FS, mkdirAll g l = .ok g' →
    ∀ q ∈ l, q ∈ g'.dirs := by
  induction l with
  | nil => intro g g' _ q hq; cases hq
  | cons x rest ih =>
    intro g g' h q hq
    rw [mkdirAll, except_bind_ok] at h
    obtain ⟨g1, h1, h2⟩ := h
    rcases List.mem_cons.mp hq with he | hm
    · subst he
      exact mkdirAll_ok_dirs rest g1 g' h2 q (mkdirOne_ok_self g q g1 h1)
    · exact ih g1 g' h2 q hm

theorem makedirs_ok_files (g : FS) (p : FPath) (g' : FS) (h : makedirs g p = .ok g') :
    g'.files = g.files := mkdirAll_ok_files (pathPrefixes p) g g' h

theorem makedirs_ok_dirs (g : FS) (p : FPath) (g' : FS) (h : makedirs g p = .ok g')
    (q : FPath) (hq : q ∈ g.dirs) : q ∈ g'.dirs :=
  mkdirAll_ok_dirs (pathPrefixes p) g g' h q hq

theorem self_mem_pathPrefixes (p : FPath) (hp : p ≠ []) : p ∈ pathPrefixes p := by
  unfold pathPrefixes
  have hl : 0 < p.length := List.length_pos.mpr hp
  refine List.mem_map.mpr ⟨p.length - 1, ?_, ?_⟩
  · exact List.mem_range.mpr (Nat.sub_lt hl Nat.one_pos)
  · rw [Nat.sub_add_cancel hl]
    exact List.take_length p

theorem makedirs_ok_self (g : FS) (p : FPath) (g' : FS) (h : makedirs g p = .ok g')
    (hp : p ≠ []) : p ∈ g'.dirs :=
  mkdirAll_ok_all (pathPrefixes p) g g' h p (self_mem_pathPrefixes p hp)

theorem rmtree_ok_eq (g : FS) (p : FPath) (g' : FS) (h : rmtree g p = .ok g') :
    g' = { g with files := filterNotUnder g.files p,
                  dirs := g.dirs.filter (fun d => !(p.isPrefixOf d)) } := by
  unfold rmtree at h
  split at h
  · cases h
  · split at h
    · cases h
    · cases h; rfl

theorem rmtree_ok_lookup_under (g : FS) (p : FPath) (g' : FS) (h : rmtree g p = .ok g')
    (q : FPath) (hq : p.isPrefixOf q = true) : lookupFile g' q = none := by
  rw [rmtree_ok_eq g p g' h]
  exact lookupIn_filterNotUnder_under g.files p q hq

theorem rmtree_ok_filter (g : FS) (p : FPath) (g' : FS) (h : rmtree g p = .ok g') :
    filterNotUnder g'.files p = filterNotUnder g.files p := by
  rw [rmtree_ok_eq g p g' h]
  exact filterNotUnder_idem g.files p

/-! ### `foldCopy` lemmas and the copy-loop equivalences -/

theorem foldCopy_ok_frame (pairs : List (FPath × FPath)) : ∀ g g' : FS,
    foldCopy g pairs = .ok g' → ∀ q : FPath, (∀ pr ∈ pairs, q ≠ pr.2) →
    lookupFile g' q = lookupFile g q := by
  induction pairs with
  | nil => intro g g' h q _; cases h; rfl
  | cons pr rest ih =>
    intro g g' h q hq
    obtain ⟨s, t⟩ := pr
    rw [foldCopy, except_bind_ok] at h
    obtain ⟨g1, h1, h2⟩ := h
    obtain ⟨c, _, hw⟩ := (copyFile_ok_iff g s t g1).mp h1
    rw [ih g1 g' h2 q (fun x hx => hq x (List.mem_cons_of_mem _ hx))]
    exact writeFile_ok_lookup_other g t c g1 hw q (hq (s, t) (List.mem_cons_self _ _))

theorem foldCopy_ok_isSome (pairs : List (FPath × FPath)) : ∀ g g' : FS,
    foldCopy g pairs = .ok g' → ∀ q : FPath, (lookupFile g q).isSome →
    (lookupFile g' q).isSome := by
  induction pairs with
  | nil => intro g g' h q hs; cases h; exact hs
  | cons pr rest ih =>
    intro g g' h q hs
    obtain ⟨s, t⟩ := pr
    rw [foldCopy, except_bind_ok] at h
    obtain ⟨g1, h1, h2⟩ := h
    obtain ⟨c, _, hw⟩ := (copyFile_ok_iff g s t g1).mp h1
    exact ih g1 g' h2 q (writeFile_ok_isSome g t c g1 hw q hs)

theorem foldCopy_ok_dirs (pairs : List (FPath × FPath)) : ∀ g g' : FS,
    foldCopy g pairs = .ok g' → g'.dirs = g.dirs := by
  induction pairs with
  | nil => intro g g' h; cases h; rfl
  | cons pr rest ih =>
    intro g g' h
    obtain ⟨s, t⟩ := pr
    rw [foldCopy, except_bind_ok] at h
    obtain ⟨g1, h1, h2⟩ := h
    obtain ⟨c, _, hw⟩ := (copyFile_ok_iff g s t g1).mp h1
    rw [ih g1 g' h2, writeFile_ok_dirs g t c g1 hw]

theorem foldCopy_ok_filter (pairs : List (FPath × FPath)) (d : FPath) : ∀ g g' : FS,
    foldCopy g pairs = .ok g' → (∀ pr ∈ pairs, d.isPrefixOf pr.2 = true) →
    filterNotUnder g'.files d = filterNotUnder g.files d := by
  induction pairs with
  | nil => intro g g' h _; cases h; rfl
  | cons pr rest ih =>
    intro g g' h hd
    obtain ⟨s, t⟩ := pr
    rw [foldCopy, except_bind_ok] at h
    obtain ⟨g1, h1, h2⟩ := h
    obtain ⟨c, _, hw⟩ := (copyFile_ok_iff g s t g1).mp h1
    rw [ih g1 g' h2 (fun x hx => hd x (List.mem_cons_of_mem _ hx)),
      writeFile_ok_filter g t c g1 hw d (hd (s, t) (List.mem_cons_self _ _))]

theorem foldCopy_ok_covers (pairs : List (FPath × FPath)) : ∀ g g' : FS,
    foldCopy g pairs = .ok g' → ∀ pr ∈ pairs, (lookupFile g' pr.2).isSome := by
  induction pairs with
  | nil => intro g g' _ pr hpr; cases hpr
  | cons hd rest ih =>
    intro g g' h pr hpr
    obtain ⟨s, t⟩ := hd
    rw [foldCopy, except_bind_ok] at h
    obtain ⟨g1, h1, h2⟩ := h
    obtain ⟨c, _, hw⟩ := (copyFile_ok_iff g s t g1).mp h1
    rcases List.mem_cons.mp hpr with he | hm
    · subst he
      refine foldCopy_ok_isSome rest g1 g' h2 t ?_
      rw [writeFile_ok_lookup_self g t c g1 hw]; rfl
    · exact ih g1 g' h2 pr hm

theorem copyTarget_eq (d sub s : FPath) :
    AzureTemplate.copyTarget d sub s = d ++ sub ++ [basename s] := by
  unfold AzureTemplate.copyTarget
  by_cases h : sub = [] <;> simp [h]

theorem copyTarget_under (d sub s : FPath) :
    d.isPrefixOf (AzureTemplate.copyTarget d sub s) = true := by
  rw [copyTarget_eq, List.append_assoc]
  exact isPrefixOf_append d (sub ++ [basename s])

theorem basename_copyTarget (d sub s : FPath) :
    basename (AzureTemplate.copyTarget d sub s) = basename s := by
  rw [copyTarget_eq]
  exact basename_append (d ++ sub) (basename s)

theorem copy_files_eq_foldCopy (files : List FPath) (d sub : FPath) : ∀ g : FS,
    AzureTemplate.copy_files g files d sub
      = foldCopy g (files.map fun s => (s, AzureTemplate.copyTarget d sub s)) := by
  induction files with
  | nil => intro g; rfl
  | cons s rest ih =>
    intro g
    rw [AzureTemplate.copy_files, List.map_cons, foldCopy]
    cases h : copyFile g s (AzureTemplate.copyTarget d sub s) with
    | error e => rfl
    | ok g1 => simp [Except.bind, ih g1]

theorem copyMainFiles_eq_foldCopy (names : List String) (ts d : FPath) : ∀ g : FS,
    AzureTemplate.copyMainFiles g names ts d
      = foldCopy g (names.map fun n => (ts ++ [n], d ++ [n])) := by
  induction names with
  | nil => intro g; rfl
  | cons n rest ih =>
    intro g
    rw [AzureTemplate.copyMainFiles, List.map_cons, foldCopy]
    cases h : copyFile g (ts ++ [n]) (d ++ [n]) with
    | error e => rfl
    | ok g1 => simp [Except.bind, ih g1]

theorem copyRootTf_eq_foldCopy (paths : List FPath) (d : FPath) : ∀ g : FS,
    Provision.copyRootTfFiles g paths d
      = foldCopy g (paths.map fun p => (p, d ++ [basename p])) := by
  induction paths with
  | nil => intro g; rfl
  | cons p rest ih =>
    intro g
    rw [Provision.copyRootTfFiles, List.map_cons, foldCopy]
    cases h : copyFile g p (d ++ [basename p]) with
    | error e => rfl
    | ok g1 => simp [Except.bind, ih g1]

theorem copySubmodule_eq_foldCopy (paths : List FPath) (ts d sub : FPath) : ∀ g : FS,
    Provision.copySubmoduleFiles g paths ts d sub
      = foldCopy g (paths.map fun p => (ts ++ sub ++ [basename p], d ++ sub ++ [basename p])) := by
  induction paths with
  | nil => intro g; rfl
  | cons p rest ih =>
    intro g
    rw [Provision.copySubmoduleFiles, List.map_cons, foldCopy]
    cases h : copyFile g (ts ++ sub ++ [basename p]) (d ++ sub ++ [basename p]) with
    | error e => rfl
    | ok g1 => simp [Except.bind, ih g1]

/-! ### Path-shape disequalities -/

theorem subpath_ne_root_child (d sub : FPath) (f n : String) (hsub : sub ≠ []) :
    d ++ sub ++ [f] ≠ d ++ [n] := by
  intro he
  rw [List.append_assoc] at he
  have h2 : sub ++ [f] = [n] := List.append_cancel_left he
  cases sub with
  | nil => exact hsub rfl
  | cons a t => simp at h2

theorem subpath_inj (d sub sub' : FPath) (f f' : String)
    (h : d ++ sub ++ [f] = d ++ sub' ++ [f']) : sub = sub' ∧ f = f' := by
  rw [List.append_assoc, List.append_assoc] at h
  have h2 : sub ++ [f] = sub' ++ [f'] := List.append_cancel_left h
  have h3 := List.append_inj' h2 (by simp)
  exact ⟨h3.1, by simpa using h3.2⟩

/-! ### The sub-module loop of azure_template -/

theorem copyAllowedExts_spec (ts d sub : FPath) (g0 : FS)
    (hdisj : ∀ f : String, d.isPrefixOf (ts ++ sub ++ [f]) = false) :
    ∀ (exts : List String) (g g' : FS),
    filterNotUnder g.files d = filterNotUnder g0.files d →
    AzureTemplate.copyAllowedExts g exts ts d sub = .ok g' →
    (filterNotUnder g'.files d = filterNotUnder g0.files d
     ∧ (∀ q : FPath, (∀ ext ∈ exts, ∀ s ∈ glob g0 (ts ++ sub) ext,
          q ≠ AzureTemplate.copyTarget d sub s) → lookupFile g' q = lookupFile g q)
     ∧ (∀ ext ∈ exts, ∀ s ∈ glob g0 (ts ++ sub) ext,
          (lookupFile g' (AzureTemplate.copyTarget d sub s)).isSome)
     ∧ (∀ q : FPath, (lookupFile g q).isSome → (lookupFile g' q).isSome)
     ∧ g'.dirs = g.dirs) := by
  intro exts
  induction exts with
  | nil =>
    intro g g' hOut h
    cases h
    exact ⟨hOut, fun q _ => rfl, by simp, fun q hs => hs, rfl⟩
  | cons ext rest ih =>
    intro g g' hOut h
    rw [AzureTemplate.copyAllowedExts, except_bind_ok] at h
    obtain ⟨g1, h1, h2⟩ := h
    have hglob : glob g (ts ++ sub) ext = glob g0 (ts ++ sub) ext :=
      glob_eq_of_filter_eq g g0 d (ts ++ sub) ext hOut hdisj
    rw [copy_files_eq_foldCopy, hglob] at h1
    have hunder : ∀ pr ∈ (glob g0 (ts ++ sub) ext).map
        (fun s => (s, AzureTemplate.copyTarget d sub s)), d.isPrefixOf pr.2 = true := by
      intro pr hpr
      obtain ⟨s, _, he⟩ := List.mem_map.mp hpr
      rw [← he]
      exact copyTarget_under d sub s
    have hfil1 : filterNotUnder g1.files d = filterNotUnder g0.files d := by
      rw [foldCopy_ok_filter _ d g g1 h1 hunder]; exact hOut
    obtain ⟨ihfil, ihframe, ihcov, ihmono, ihdirs⟩ := ih g1 g' hfil1 h2
    refine ⟨ihfil, ?_, ?_, ?_, ?_⟩
    · intro q hq
      have hq1 : ∀ pr ∈ (glob g0 (ts ++ sub) ext).map
          (fun s => (s, AzureTemplate.copyTarget d sub s)), q ≠ pr.2 := by
        intro pr hpr
        obtain ⟨s, hs, he⟩ := List.mem_map.mp hpr
        rw [← he]
        exact hq ext (List.mem_cons_self _ _) s hs
      rw [ihframe q (fun e he s hs => hq e (List.mem_cons_of_mem _ he) s hs)]
      exact foldCopy_ok_frame _ g g1 h1 q hq1
    · intro e he s hs
      rcases List.mem_cons.mp he with hee | hem
      · subst hee
        refine ihmono _ ?_
        exact foldCopy_ok_covers _ g g1 h1 (s, AzureTemplate.copyTarget d sub s)
          (List.mem_map.mpr ⟨s, hs, rfl⟩)
      · exact ihcov e hem s hs
    · intro q hs
      exact ihmono q (foldCopy_ok_isSome _ g g1 h1 q hs)
    · rw [ihdirs]
      exact foldCopy_ok_dirs _ g g1 h1

theorem submodulesRun_spec (ts d : FPath) (v : Bool) (g0 : FS) :
    ∀ (names : List FPath) (g g' : FS) (evs : List Event),
    (∀ sub ∈ names, ∀ f : String, d.isPrefixOf (ts ++ sub ++ [f]) = false) →
    (∀ sub ∈ names, sub ≠ []) →
    filterNotUnder g.files d = filterNotUnder g0.files d →
    AzureTemplate.submodulesRun g names ts d v = .ok (g', evs) →
    (filterNotUnder g'.files d = filterNotUnder g0.files d
     ∧ (∀ q : FPath, (∀ sub ∈ names, ∀ ext ∈ AzureTemplate.ALLOWED_EXTENSIONS,
          ∀ s ∈ glob g0 (ts ++ sub) ext, q ≠ AzureTemplate.copyTarget d sub s) →
          lookupFile g' q = lookupFile g q)
     ∧ (∀ sub ∈ names, ∀ ext ∈ AzureTemplate.ALLOWED_EXTENSIONS,
          ∀ s ∈ glob g0 (ts ++ sub) ext,
          (lookupFile g' (AzureTemplate.copyTarget d sub s)).isSome)
     ∧ (∀ q : FPath, (lookupFile g q).isSome → (lookupFile g' q).isSome)
     ∧ (∀ sub ∈ names, (d ++ sub) ∈ g'.dirs)
     ∧ (∀ q ∈ g.dirs, q ∈ g'.dirs)
     ∧ evs = (if v then names.map AzureTemplate.moduleCopiedEvent else [])) := by
  intro names
  induction names with
  | nil =>
    intro g g' evs _ _ hOut h
    cases h
    refine ⟨hOut, fun q _ => rfl, by simp, fun q hs => hs, by simp, fun q hq => hq, by simp⟩
  | cons sub rest ih =>
    intro g g' evs hdisj hne hOut h
    rw [AzureTemplate.submodulesRun, except_bind_ok] at h
    obtain ⟨g1, h1, h⟩ := h
    rw [except_bind_ok] at h
    obtain ⟨g2, h2, h⟩ := h
    rw [except_map_ok] at h
    obtain ⟨pr, h3, h4⟩ := h
    rw [Prod.mk.injEq] at h4
    obtain ⟨hg', hevs⟩ := h4
    have hfiles1 : g1.files = g.files := makedirs_ok_files g (d ++ sub) g1 h1
    have hOut1 : filterNotUnder g1.files d = filterNotUnder g0.files d := by
      rw [hfiles1]; exact hOut
    have hdisjsub : ∀ f : String, d.isPrefixOf (ts ++ sub ++ [f]) = false :=
      hdisj sub (List.mem_cons_self _ _)
    obtain ⟨efil, eframe, ecov, emono, edirs⟩ :=
      copyAllowedExts_spec ts d sub g0 hdisjsub AzureTemplate.ALLOWED_EXTENSIONS g1 g2 hOut1 h2
    obtain ⟨rfil, rframe, rcov, rmono, rdirsNew, rdirsMono, revs⟩ :=
      ih g2 pr.1 pr.2 (fun x hx => hdisj x (List.mem_cons_of_mem _ hx))
        (fun x hx => hne x (List.mem_cons_of_mem _ hx)) efil h3
    subst hg'
    refine ⟨rfil, ?_, ?_, ?_, ?_, ?_, ?_⟩
    · intro q hq
      rw [rframe q (fun x hx => hq x (List.mem_cons_of_mem _ hx)),
        eframe q (fun e he s hs => hq sub (List.mem_cons_self _ _) e he s hs)]
      unfold lookupFile
      rw [hfiles1]
    · intro x hx e he s hs
      rcases List.mem_cons.mp hx with hee | hem
      · subst hee
        exact rmono _ (ecov e he s hs)
      · exact rcov x hem e he s hs
    · intro q hs
      refine rmono q (emono q ?_)
      unfold lookupFile
      rw [hfiles1]
      exact hs
    · intro x hx
      rcases List.mem_cons.mp hx with hee | hem
      · subst hee
        have hx1 : (d ++ x) ∈ g1.dirs := by
          refine makedirs_ok_self g (d ++ x) g1 h1 ?_
          intro hnil
          rcases List.append_eq_nil.mp hnil with ⟨_, hx2⟩
          exact hne x (List.mem_cons_self _ _) hx2
        refine rdirsMono _ ?_
        rw [edirs]
        exact hx1
      · exact rdirsNew x hem
    · intro q hq
      refine rdirsMono q ?_
      rw [edirs]
      exact makedirs_ok_dirs g (d ++ sub) g1 h1 q hq
    · rw [← hevs, revs]
      cases v <;> simp

/-! ### Decomposing a successful azure `build_template` run -/

theorem coreRun_ok_decomp (config : AzureTemplate.TemplateVariables) (ts d : FPath)
    (v : Bool) (g g' : FS) (log : List Event)
    (h : AzureTemplate.coreRun config ts d v g = .ok (g', log)) :
    ∃ g1 g2 g3 g4 pr,
      (if pathExists g d then rmtree g d else Except.ok g) = .ok g1
      ∧ makedirs g1 d = .ok g2
      ∧ AzureTemplate.copyMainFiles g2 AzureTemplate.main_module_filenames ts d = .ok g3
      ∧ AzureTemplate.copy_files g3 (glob g3 ts "tf") d [] = .ok g4
      ∧ AzureTemplate.submodulesRun g4 AzureTemplate.SUBMODULE_NAMES ts d v = .ok pr
      ∧ writeFile pr.1 (d ++ [AzureTemplate.tfvarsName])
          (AzureTemplate.jsonDump config.asdict) = .ok g'
      ∧ log = [AzureTemplate.buildingEvent]
          ++ (if v then [AzureTemplate.ensureDirEvent d] else [])
          ++ pr.2
          ++ (if v then [Event.substepSuccess "Configuration was copied"] else [])
          ++ (if v then [Event.substepSuccess "Template variables were added."] else []) := by
  rw [AzureTemplate.coreRun, except_bind_ok] at h
  obtain ⟨g1, h1, h⟩ := h
  rw [except_bind_ok] at h
  obtain ⟨g2, h2, h⟩ := h
  rw [except_bind_ok] at h
  obtain ⟨g3, h3, h⟩ := h
  rw [except_bind_ok] at h
  obtain ⟨g4, h4, h⟩ := h
  rw [except_bind_ok] at h
  obtain ⟨pr, h5, h⟩ := h
  rw [except_map_ok] at h
  obtain ⟨g6, h6, h7⟩ := h
  rw [Prod.mk.injEq] at h7
  exact ⟨g1, g2, g3, g4, pr, h1, h2, h3, h4, h5, h7.1 ▸ h6, h7.2.symm⟩

theorem build_template_ok_decomp (config : AzureTemplate.TemplateVariables) (ts d : FPath)
    (v : Bool) (g g' : FS) (log : List Event)
    (h : AzureTemplate.build_template config ts d v g = .ok (g', log)) :
    ∃ log0, AzureTemplate.coreRun config ts d v g = .ok (g', log0)
      ∧ log = log0 ++ AzureTemplate.finishedEvents d v := by
  unfold AzureTemplate.build_template at h
  cases hc : AzureTemplate.coreRun config ts d v g with
  | error e =>
    rw [hc] at h
    cases e <;> cases h
  | ok pr =>
    obtain ⟨a, b⟩ := pr
    rw [hc] at h
    simp only [Except.ok.injEq, Prod.mk.injEq] at h
    exact ⟨b, by rw [h.1], h.2.symm⟩

/-- **C2**: a successful azure `build_template` writes the file
`destination/terraform.tfvars.json` whose content is the flat JSON object
with exactly the keys `location`, `prefix`, `password`, each bound to the
corresponding field of the record, and no other keys. -/
theorem variables_file_exact (config : AzureTemplate.TemplateVariables)
    (template_src destination : FPath) (verbose : Bool) (g g' : FS) (log : List Event)
    (h : AzureTemplate.build_template config template_src destination verbose g
        = .ok (g', log)) :
    lookupFile g' (destination ++ [AzureTemplate.tfvarsName])
      = some (AzureTemplate.jsonDump
          [("location", config.location), ("prefix", config.pfx),
           ("password", config.password)]) := by
  obtain ⟨log0, hc, _⟩ := build_template_ok_decomp config template_src destination verbose
    g g' log h
  obtain ⟨g1, g2, g3, g4, pr, _, _, _, _, _, h6, _⟩ :=
    coreRun_ok_decomp config template_src destination verbose g g' log0 hc
  have hw := writeFile_ok_lookup_self _ _ _ _ h6
  simpa [AzureTemplate.TemplateVariables.asdict] using hw

/-- Witness: `variables_file_exact` applied to a concrete successful run. -/
theorem variables_file_exact_witness :
    ∃ g' log, AzureTemplate.build_template fixtureConfig ["t"] ["d"] false fixtureFS
        = .ok (g', log)
      ∧ lookupFile g' (["d"] ++ [AzureTemplate.tfvarsName])
          = some (AzureTemplate.jsonDump
              [("location", "uksouth"), ("prefix", "matcha"), ("password", "s3cr3t")]) :=
  ⟨_, _, rfl, variables_file_exact fixtureConfig ["t"] ["d"] false fixtureFS _ _ rfl⟩

/-- **C4**: azure `build_template` reports the `MatchaPermissionError`
naming the destination path exactly when the underlying materialization
body raises a permission error; every other filesystem error propagates to
the caller unmodified and untranslated. -/
theorem permission_error_taxonomy (config : AzureTemplate.TemplateVariables)
    (template_src destination : FPath) (verbose : Bool) (g : FS) :
    (AzureTemplate.build_template config template_src destination verbose g
        = .error (.matchaPermission destination)
      ↔ ∃ p, AzureTemplate.coreRun config template_src destination verbose g
          = .error (.permission p))
    ∧ (∀ e : FSError, (∀ p, e ≠ .permission p) →
        (AzureTemplate.build_template config template_src destination verbose g
            = .error (.fsError e)
          ↔ AzureTemplate.coreRun config template_src destination verbose g
            = .error e)) := by
  cases hc : AzureTemplate.coreRun config template_src destination verbose g with
  | error e =>
    cases e with
    | permission p =>
      constructor
      · constructor
        · intro _
          exact ⟨p, rfl⟩
        · intro _
          simp [AzureTemplate.build_template, hc]
      · intro e' he'
        constructor
        · intro hb
          simp [AzureTemplate.build_template, hc] at hb
        · intro hcc
          injection hcc with hcc
          exact absurd hcc.symm (he' p)
    | notFound p =>
      constructor
      · constructor
        · intro hb
          simp [AzureTemplate.build_template, hc] at hb
        · intro hp
          obtain ⟨q, hq⟩ := hp
          injection hq with hq
          cases hq
      · intro e' he'
        constructor
        · intro hb
          simp [AzureTemplate.build_template, hc] at hb
          rw [hb]
        · intro hcc
          injection hcc with hcc
          simp [AzureTemplate.build_template, hc, ← hcc]
    | fileExists p =>
      constructor
      · constructor
        · intro hb
          simp [AzureTemplate.build_template, hc] at hb
        · intro hp
          obtain ⟨q, hq⟩ := hp
          injection hq with hq
          cases hq
      · intro e' he'
        constructor
        · intro hb
          simp [AzureTemplate.build_template, hc] at hb
          rw [hb]
        · intro hcc
          injection hcc with hcc
          simp [AzureTemplate.build_template, hc, ← hcc]
  | ok pr =>
    obtain ⟨a, b⟩ := pr
    constructor
    · constructor
      · intro hb
        simp [AzureTemplate.build_template, hc] at hb
      · intro hp
        obtain ⟨q, hq⟩ := hp
        cases hq
    · intro e' he'
      constructor
      · intro hb
        simp [AzureTemplate.build_template, hc] at hb
      · intro hcc
        cases hcc

/-- Witness: on a read-only root, the run fails with the distinguished
permission error naming the destination. -/
theorem permission_error_taxonomy_witness :
    AzureTemplate.build_template fixtureConfig ["t"] ["d"] false fixtureReadOnlyFS
      = .error (.matchaPermission ["d"]) :=
  (permission_error_taxonomy fixtureConfig ["t"] ["d"] false fixtureReadOnlyFS).1.mpr
    ⟨["d"], rfl⟩

/-- **C7**: for a path that does not exist, `reuse_configuration` returns
the proceed-with-rebuild outcome (`false`) with no interaction at all —
whatever the collaborator would have answered; the collaborator is thus
consulted only for existing paths. -/
theorem reuse_decision_absent_no_prompt (g : FS) (path : FPath) (answerOverride : Bool)
    (h : pathExists g path = false) :
    AzureTemplate.reuse_configuration g path answerOverride = (false, []) := by
  simp [AzureTemplate.reuse_configuration, h]

/-- Witness: `reuse_configuration` on an absent path, with an arbitrary
collaborator answer. -/
theorem reuse_decision_absent_no_prompt_witness :
    AzureTemplate.reuse_configuration fixtureFS ["nonexistent"] true = (false, []) :=
  reuse_decision_absent_no_prompt fixtureFS ["nonexistent"] true (by decide)

/-- **C1** (orchestration modelled from the spec): when the destination
exists and the reuse decision answers "reuse", the orchestrated run stops
with the filesystem returned unchanged — no file under the destination is
created, modified or deleted, and in particular the pre-existing variables
file keeps its content. -/
theorem reuse_never_mutates (answerOverride : Bool)
    (config : AzureTemplate.TemplateVariables) (template_src destination : FPath)
    (verbose : Bool) (g : FS)
    (hex : pathExists g destination = true)
    (hreuse : (AzureTemplate.reuse_configuration g destination answerOverride).1 = true) :
    ∃ evs, provisionWithReuseDecision answerOverride config template_src destination verbose g
        = .ok (g, evs) := by
  refine ⟨(AzureTemplate.reuse_configuration g destination answerOverride).2
    ++ [Event.stepSuccess "Matcha reused the existing configuration"], ?_⟩
  unfold provisionWithReuseDecision
  rw [hreuse]
  simp

/-- Witness: reuse chosen on an existing destination returns the state
unchanged. -/
theorem reuse_never_mutates_witness :
    ∃ evs, provisionWithReuseDecision false fixtureConfig ["t"] ["d"] false fixtureFSWithDest
        = .ok (fixtureFSWithDest, evs) :=
  reuse_never_mutates false fixtureConfig ["t"] ["d"] false fixtureFSWithDest
    (by decide) (by decide)

/-! ### Stale files never survive an override (azure `build_template`) -/

theorem wf_no_files_under (g : FS) (d : FPath) (hwf : FS.wf g) (hd : d ≠ [])
    (hex : pathExists g d = false) (q : FPath) (hq : d.isPrefixOf q = true)
    (hlen : d.length < q.length) : lookupFile g q = none := by
  cases hl : lookupFile g q with
  | none => rfl
  | some c =>
    exfalso
    have hmem : (q, c) ∈ g.files := lookupIn_some_mem g.files q c hl
    have hdir : q.take d.length ∈ g.dirs :=
      hwf (q, c) hmem d.length (List.mem_range.mpr hlen) (List.length_pos.mpr hd)
    rw [take_eq_of_isPrefixOf d q hq] at hdir
    unfold pathExists isDir at hex
    rw [Bool.or_eq_false_iff] at hex
    have hmp := (memPath_iff g.dirs d).mpr hdir
    rw [hex.1] at hmp
    cases hmp

/-- Through the conditional `rmtree`, `makedirs`, auxiliary-file copies and
root `*.tf` copies, the restriction of the file map outside the destination
subtree is unchanged, and the root glob agrees with the initial state. -/
theorem coreRun_prefix_facts (ts d : FPath) (g g1 g2 g3 g4 : FS)
    (hsep1 : ts.isPrefixOf d = false) (hsep2 : d.isPrefixOf ts = false)
    (h1 : (if pathExists g d then rmtree g d else Except.ok g) = .ok g1)
    (h2 : makedirs g1 d = .ok g2)
    (h3 : AzureTemplate.copyMainFiles g2 AzureTemplate.main_module_filenames ts d = .ok g3)
    (h4 : AzureTemplate.copy_files g3 (glob g3 ts "tf") d [] = .ok g4) :
    filterNotUnder g4.files d = filterNotUnder g.files d
    ∧ glob g3 ts "tf" = glob g ts "tf" := by
  have hfil1 : filterNotUnder g1.files d = filterNotUnder g.files d := by
    by_cases hex : pathExists g d = true
    · rw [if_pos hex] at h1
      exact rmtree_ok_filter g d g1 h1
    · rw [if_neg hex] at h1
      cases h1
      rfl
  have hfil2 : filterNotUnder g2.files d = filterNotUnder g.files d := by
    unfold filterNotUnder
    rw [makedirs_ok_files g1 d g2 h2]
    exact hfil1
  have hmain3 : ∀ pr ∈ AzureTemplate.main_module_filenames.map
      (fun n => (ts ++ [n], d ++ [n])), d.isPrefixOf pr.2 = true := by
    intro pr hpr
    obtain ⟨n, _, he⟩ := List.mem_map.mp hpr
    rw [← he]
    exact isPrefixOf_append d [n]
  rw [copyMainFiles_eq_foldCopy] at h3
  have hfil3 : filterNotUnder g3.files d = filterNotUnder g.files d := by
    rw [foldCopy_ok_filter _ d g2 g3 h3 hmain3]
    exact hfil2
  have hglob3 : glob g3 ts "tf" = glob g ts "tf" :=
    glob_eq_of_filter_eq g3 g d ts "tf" hfil3 (fun f => sep_not_under ts d hsep1 hsep2 [f])
  have hroot4 : ∀ pr ∈ (glob g3 ts "tf").map
      (fun s => (s, AzureTemplate.copyTarget d [] s)), d.isPrefixOf pr.2 = true := by
    intro pr hpr
    obtain ⟨s, _, he⟩ := List.mem_map.mp hpr
    rw [← he]
    exact copyTarget_under d [] s
  rw [copy_files_eq_foldCopy] at h4
  have hfil4 : filterNotUnder g4.files d = filterNotUnder g.files d := by
    rw [foldCopy_ok_filter _ d g3 g4 h4 hroot4]
    exact hfil3
  exact ⟨hfil4, hglob3⟩

/-- Any path under the destination that is not a target of the current
manifest is absent after a successful azure materialization body, provided
it was absent initially or the destination existed (and was hence cleared
by the `rmtree`). -/
theorem coreRun_stale_none (config : AzureTemplate.TemplateVariables) (ts d : FPath)
    (v : Bool) (g g' : FS) (log : List Event)
    (hsep1 : ts.isPrefixOf d = false) (hsep2 : d.isPrefixOf ts = false)
    (hok : AzureTemplate.coreRun config ts d v g = .ok (g', log))
    (p : FPath) (hunder : d.isPrefixOf p = true)
    (hinit : pathExists g d = true ∨ lookupFile g p = none)
    (hstale : p ∉ AzureTemplate.manifestCopyTargets g ts d) :
    lookupFile g' p = none := by
  obtain ⟨g1, g2, g3, g4, pr, h1, h2, h3, h4, h5, h6, _⟩ :=
    coreRun_ok_decomp config ts d v g g' log hok
  obtain ⟨hfil4, hglob3⟩ := coreRun_prefix_facts ts d g g1 g2 g3 g4 hsep1 hsep2 h1 h2 h3 h4
  simp only [AzureTemplate.manifestCopyTargets, List.mem_append, List.mem_map,
    List.mem_flatMap, List.mem_singleton, not_or] at hstale
  push_neg at hstale
  obtain ⟨⟨⟨hm1, hm2⟩, hm3⟩, hm4⟩ := hstale
  have hnone1 : lookupFile g1 p = none := by
    by_cases hex : pathExists g d = true
    · rw [if_pos hex] at h1
      exact rmtree_ok_lookup_under g d g1 h1 p hunder
    · rw [if_neg hex] at h1
      cases h1
      rcases hinit with hin | hin
      · exact absurd hin hex
      · exact hin
  have hnone2 : lookupFile g2 p = none := by
    unfold lookupFile
    rw [makedirs_ok_files g1 d g2 h2]
    exact hnone1
  rw [copyMainFiles_eq_foldCopy] at h3
  have hfr3 : ∀ pr2 ∈ AzureTemplate.main_module_filenames.map
      (fun n => (ts ++ [n], d ++ [n])), p ≠ pr2.2 := by
    intro pr2 hpr
    obtain ⟨n, hn, he⟩ := List.mem_map.mp hpr
    rw [← he]
    intro hp
    exact hm1 n hn hp.symm
  have hnone3 : lookupFile g3 p = none := by
    rw [foldCopy_ok_frame _ g2 g3 h3 p hfr3]
    exact hnone2
  rw [copy_files_eq_foldCopy, hglob3] at h4
  have hfr4 : ∀ pr2 ∈ (glob g ts "tf").map
      (fun s => (s, AzureTemplate.copyTarget d [] s)), p ≠ pr2.2 := by
    intro pr2 hpr
    obtain ⟨s, hs, he⟩ := List.mem_map.mp hpr
    rw [← he]
    rw [copyTarget_eq]
    simp only [List.append_nil]
    intro hp
    exact hm2 s hs hp.symm
  have hnone4 : lookupFile g4 p = none := by
    rw [foldCopy_ok_frame _ g3 g4 h4 p hfr4]
    exact hnone3
  have hdisj : ∀ sub ∈ AzureTemplate.SUBMODULE_NAMES, ∀ f : String,
      d.isPrefixOf (ts ++ sub ++ [f]) = false := by
    intro sub _ f
    have hs := sep_not_under ts d hsep1 hsep2 (sub ++ [f])
    rwa [← List.append_assoc] at hs
  have hne : ∀ sub ∈ AzureTemplate.SUBMODULE_NAMES, sub ≠ [] := by decide
  obtain ⟨sfil, sframe, scov, smono, sdirs, sdirsMono, sevs⟩ :=
    submodulesRun_spec ts d v g AzureTemplate.SUBMODULE_NAMES g4 pr.1 pr.2 hdisj hne hfil4 h5
  have hfr5 : ∀ sub ∈ AzureTemplate.SUBMODULE_NAMES,
      ∀ ext ∈ AzureTemplate.ALLOWED_EXTENSIONS, ∀ s ∈ glob g (ts ++ sub) ext,
      p ≠ AzureTemplate.copyTarget d sub s := by
    intro sub hsub ext hext s hs
    rw [copyTarget_eq]
    intro hp
    exact hm3 sub hsub ext hext s hs hp.symm
  have hnone5 : lookupFile pr.1 p = none := by
    rw [sframe p hfr5]
    exact hnone4
  rw [writeFile_ok_lookup_other pr.1 _ _ g' h6 p hm4]
  exact hnone5

/-- **C3**: when the destination exists at entry (override path), the whole
old tree is deleted before rebuilding, so a file of the old workspace whose
path is not among the current manifest's copy targets never exists in the
resulting workspace. -/
theorem override_clears_stale (config : AzureTemplate.TemplateVariables)
    (template_src destination : FPath) (verbose : Bool) (g g' : FS) (log : List Event)
    (hsep1 : template_src.isPrefixOf destination = false)
    (hsep2 : destination.isPrefixOf template_src = false)
    (hex : pathExists g destination = true)
    (hok : AzureTemplate.build_template config template_src destination verbose g
        = .ok (g', log))
    (p : FPath) (hunder : destination.isPrefixOf p = true)
    (hold : (lookupFile g p).isSome)
    (hstale : p ∉ AzureTemplate.manifestCopyTargets g template_src destination) :
    lookupFile g' p = none := by
  obtain ⟨log0, hc, _⟩ :=
    build_template_ok_decomp config template_src destination verbose g g' log hok
  exact coreRun_stale_none config template_src destination verbose g g' log0 hsep1 hsep2 hc
    p hunder (Or.inl hex) hstale

/-- Witness: the stale file `d/stale.txt` of the pre-existing workspace is
gone after a concrete successful rebuild. -/
theorem override_clears_stale_witness :
    ∃ g' log, AzureTemplate.build_template fixtureConfig ["t"] ["d"] false fixtureFSWithDest
        = .ok (g', log) ∧ lookupFile g' ["d", "stale.txt"] = none :=
  ⟨_, _, rfl, override_clears_stale fixtureConfig ["t"] ["d"] false fixtureFSWithDest _ _
    (by decide) (by decide) (by decide) rfl ["d", "stale.txt"] (by decide) (by decide)
    (by decide)⟩

/-- **C6**: a successful azure materialization creates one destination
sub-directory per manifest sub-module (even with no matching files), fills
each with exactly the source files of that sub-module whose extension is
allowed — no extras, no omissions — and (verbose) reports the sub-modules
in fixed manifest order. -/
theorem submodules_manifest_exact (config : AzureTemplate.TemplateVariables)
    (template_src destination : FPath) (verbose : Bool) (g g' : FS) (log : List Event)
    (hwf : FS.wf g) (hdne : destination ≠ [])
    (hsep1 : template_src.isPrefixOf destination = false)
    (hsep2 : destination.isPrefixOf template_src = false)
    (hok : AzureTemplate.build_template config template_src destination verbose g
        = .ok (g', log)) :
    (∀ sub ∈ AzureTemplate.SUBMODULE_NAMES, (destination ++ sub) ∈ g'.dirs)
    ∧ (∀ sub ∈ AzureTemplate.SUBMODULE_NAMES, ∀ f : String,
        ((lookupFile g' (destination ++ sub ++ [f])).isSome ↔
          ∃ ext ∈ AzureTemplate.ALLOWED_EXTENSIONS,
            ∃ s ∈ glob g (template_src ++ sub) ext, basename s = f))
    ∧ (verbose = true → log = AzureTemplate.buildLogVerbose destination) := by
  obtain ⟨log0, hc, hlog⟩ :=
    build_template_ok_decomp config template_src destination verbose g g' log hok
  obtain ⟨g1, g2, g3, g4, pr, h1, h2, h3, h4, h5, h6, hlog0⟩ :=
    coreRun_ok_decomp config template_src destination verbose g g' log0 hc
  obtain ⟨hfil4, _⟩ :=
    coreRun_prefix_facts template_src destination g g1 g2 g3 g4 hsep1 hsep2 h1 h2 h3 h4
  have hdisj : ∀ sub ∈ AzureTemplate.SUBMODULE_NAMES, ∀ f : String,
      destination.isPrefixOf (template_src ++ sub ++ [f]) = false := by
    intro sub _ f
    have hs := sep_not_under template_src destination hsep1 hsep2 (sub ++ [f])
    rwa [← List.append_assoc] at hs
  have hne : ∀ sub ∈ AzureTemplate.SUBMODULE_NAMES, sub ≠ [] := by decide
  obtain ⟨sfil, sframe, scov, smono, sdirs, sdirsMono, sevs⟩ :=
    submodulesRun_spec template_src destination verbose g AzureTemplate.SUBMODULE_NAMES
      g4 pr.1 pr.2 hdisj hne hfil4 h5
  refine ⟨?_, ?_, ?_⟩
  · intro sub hsub
    rw [writeFile_ok_dirs pr.1 _ _ g' h6]
    exact sdirs sub hsub
  · intro sub hsub f
    constructor
    · intro hsome
      by_contra hno
      push_neg at hno
      have hq_stale : (destination ++ sub ++ [f])
          ∉ AzureTemplate.manifestCopyTargets g template_src destination := by
        simp only [AzureTemplate.manifestCopyTargets, List.mem_append, List.mem_map,
          List.mem_flatMap, List.mem_singleton, not_or]
        push_neg
        refine ⟨⟨⟨?_, ?_⟩, ?_⟩, ?_⟩
        · intro n _ he
          exact subpath_ne_root_child destination sub f n (hne sub hsub) he.symm
        · intro s _ he
          exact subpath_ne_root_child destination sub f (basename s) (hne sub hsub) he.symm
        · intro sub' hsub' ext' hext' s hs he
          obtain ⟨hse, hfe⟩ := subpath_inj destination sub' sub (basename s) f he
          subst hse
          exact hno ext' hext' s hs hfe
        · intro he
          exact subpath_ne_root_child destination sub f AzureTemplate.tfvarsName
            (hne sub hsub) he
      have hinit : pathExists g destination = true
          ∨ lookupFile g (destination ++ sub ++ [f]) = none := by
        by_cases hex : pathExists g destination = true
        · exact Or.inl hex
        · refine Or.inr (wf_no_files_under g destination hwf hdne
            (Bool.eq_false_iff.mpr hex) _ ?_ ?_)
          · rw [List.append_assoc]
            exact isPrefixOf_append destination (sub ++ [f])
          · simp [List.length_append]
      have hnone := coreRun_stale_none config template_src destination verbose g g' log0
        hsep1 hsep2 hc (destination ++ sub ++ [f])
        (by rw [List.append_assoc]; exact isPrefixOf_append destination (sub ++ [f]))
        hinit hq_stale
      rw [hnone] at hsome
      simp at hsome
    · rintro ⟨ext, hext, s, hs, hbs⟩
      have hcov := scov sub hsub ext hext s hs
      have h6some := writeFile_ok_isSome pr.1 _ _ g' h6 _ hcov
      rw [copyTarget_eq, hbs] at h6some
      exact h6some
  · intro hv
    subst hv
    rw [hlog, hlog0, sevs]
    simp [AzureTemplate.buildLogVerbose, AzureTemplate.finishedEvents]

/-- Witness: the sub-module directories (including the empty ones) all
exist after a concrete verbose run. -/
theorem submodules_manifest_exact_witness :
    ∃ g' log, AzureTemplate.build_template fixtureConfig ["t"] ["d"] true fixtureFS
        = .ok (g', log)
      ∧ (∀ sub ∈ AzureTemplate.SUBMODULE_NAMES, (["d"] ++ sub) ∈ g'.dirs) :=
  ⟨_, _, rfl, (submodules_manifest_exact fixtureConfig ["t"] ["d"] true fixtureFS _ _
    (by unfold FS.wf; decide) (by decide) (by decide) (by decide) rfl).1⟩

/-! ### Variables round-trip, configuration store, copy_files contract -/

/-- **C5**: for `TemplateVariables(location="uksouth", prefix="matcha",
password="s3cr3t")`, parsing the variables file written by `build_template`
yields back exactly those three fields with those values and no additional
keys. -/
theorem variables_roundtrip_concrete :
    ∃ g' log, AzureTemplate.build_template
        { location := "uksouth", pfx := "matcha", password := "s3cr3t" }
        ["t"] ["d"] false fixtureFS = .ok (g', log)
      ∧ ((lookupFile g' (["d"] ++ [AzureTemplate.tfvarsName])).bind
            (fun content => AzureTemplate.parseFlatJson content))
          = some [("location", "uksouth"), ("prefix", "matcha"), ("password", "s3cr3t")] :=
  ⟨_, _, rfl, by decide⟩

/-- **C8** (modelled from the spec): within one process and before any
teardown, two sequential accesses to the configuration store return the
identical record — same `user_id` and same `analytics_opt_out` — with the
process state unchanged; in particular the second call ignores its
fresh-identifier source instead of generating a new record. -/
theorem global_parameters_singleton (s : GlobalParameters.ProcessState) (configPath : FPath)
    (id1 id2 : String) (r1 : GlobalParameters.GlobalConfigRecord)
    (s1 : GlobalParameters.ProcessState)
    (h1 : GlobalParameters.instanceCall s configPath id1 = .ok (r1, s1)) :
    GlobalParameters.instanceCall s1 configPath id2 = .ok (r1, s1) := by
  have hcach : s1.cached = some r1 := by
    unfold GlobalParameters.instanceCall at h1
    cases hs : s.cached with
    | some r =>
      simp only [hs] at h1
      injection h1 with h1
      rw [Prod.mk.injEq] at h1
      obtain ⟨hr, hsx⟩ := h1
      rw [← hsx, hs, hr]
    | none =>
      simp only [hs] at h1
      cases hl : lookupFile s.fs configPath with
      | some content =>
        simp only [hl] at h1
        cases hp : GlobalParameters.parseRecord content with
        | some r =>
          simp only [hp] at h1
          injection h1 with h1
          rw [Prod.mk.injEq] at h1
          obtain ⟨hr, hsx⟩ := h1
          rw [← hsx, hr]
        | none =>
          simp only [hp] at h1
          cases h1
      | none =>
        simp only [hl] at h1
        cases hw : ((makedirs s.fs configPath.dropLast).bind fun g1 =>
            writeFile g1 configPath (GlobalParameters.serializeRecord
              { user_id := id1, analytics_opt_out := false })) with
        | error e =>
          simp only [hw] at h1
          cases e <;> simp at h1
        | ok g2 =>
          simp only [hw] at h1
          injection h1 with h1
          rw [Prod.mk.injEq] at h1
          obtain ⟨hr, hsx⟩ := h1
          rw [← hsx, hr]
  unfold GlobalParameters.instanceCall
  rw [hcach]

/-- Witness: a fresh store creation followed by a second access with a
different identifier source returns the identical record and state. -/
theorem global_parameters_singleton_witness :
    ∃ r1 s1, GlobalParameters.instanceCall emptyProcState gpConfigPath "uid-1" = .ok (r1, s1)
      ∧ GlobalParameters.instanceCall s1 gpConfigPath "uid-2" = .ok (r1, s1) :=
  ⟨_, _, rfl, global_parameters_singleton emptyProcState gpConfigPath "uid-1" "uid-2" _ _ rfl⟩

/-- **C9 (counterexample)**: with two source files sharing the basename
`x.tf`, `copy_files` does not leave each source's content at its
destination — the later copy overwrites the earlier one, so the contract
as universally stated fails. -/
theorem copy_files_places_each_cex :
    ∃ g', AzureTemplate.copy_files cexFS [["a", "x.tf"], ["b", "x.tf"]] ["d"] [] = .ok g'
      ∧ ¬ (∀ src ∈ [["a", "x.tf"], ["b", "x.tf"]],
            lookupFile g' (AzureTemplate.copyTarget ["d"] [] src) = lookupFile cexFS src) :=
  ⟨_, rfl, by decide⟩

/-- **C9 (amended)**: for every list of source paths with pairwise distinct
basenames, a successful `copy_files` places each source file at
`destination[/sub-path]/basename(source)` with its content preserved,
discarding deeper source directory structure. -/
theorem copy_files_places_each (files : List FPath) (destination sub : FPath) :
    ∀ g g' : FS, (files.map basename).Nodup →
    AzureTemplate.copy_files g files destination sub = .ok g' →
    ∀ src ∈ files, (lookupFile g src).isSome
      ∧ lookupFile g' (AzureTemplate.copyTarget destination sub src) = lookupFile g src := by
  induction files with
  | nil =>
    intro g g' _ _ src hsrc
    cases hsrc
  | cons a rest ih =>
    intro g g' hnd h src hsrc
    rw [AzureTemplate.copy_files, except_bind_ok] at h
    obtain ⟨g1, h1, h2⟩ := h
    obtain ⟨c, hcl, hw⟩ := (copyFile_ok_iff g a _ g1).mp h1
    rw [List.map_cons] at hnd
    have hba : basename a ∉ rest.map basename := (List.nodup_cons.mp hnd).1
    have hndrest : (rest.map basename).Nodup := (List.nodup_cons.mp hnd).2
    rcases List.mem_cons.mp hsrc with he | hm
    · subst he
      refine ⟨by rw [hcl]; rfl, ?_⟩
      have hfr : ∀ pr ∈ rest.map (fun s => (s, AzureTemplate.copyTarget destination sub s)),
          AzureTemplate.copyTarget destination sub src ≠ pr.2 := by
        intro pr hpr
        obtain ⟨s, hs, hpe⟩ := List.mem_map.mp hpr
        rw [← hpe]
        intro he2
        have hb : basename src = basename s := by
          have hb2 := congrArg basename he2
          rwa [basename_copyTarget, basename_copyTarget] at hb2
        refine hba ?_
        rw [hb]
        exact List.mem_map.mpr ⟨s, hs, rfl⟩
      rw [copy_files_eq_foldCopy] at h2
      rw [foldCopy_ok_frame _ g1 g' h2 _ hfr]
      rw [writeFile_ok_lookup_self g _ c g1 hw, hcl]
    · have hsc : src ≠ AzureTemplate.copyTarget destination sub a := by
        intro he2
        have hb : basename src = basename a := by
          rw [he2, basename_copyTarget]
        refine hba ?_
        rw [← hb]
        exact List.mem_map.mpr ⟨src, hm, rfl⟩
      have hlk : lookupFile g1 src = lookupFile g src :=
        writeFile_ok_lookup_other g _ c g1 hw src hsc
      obtain ⟨hsome1, heq1⟩ := ih g1 g' hndrest h2 src hm
      rw [hlk] at hsome1 heq1
      exact ⟨hsome1, heq1⟩

/-- Witness: a single-source copy lands at `d/x.tf` with its content. -/
theorem copy_files_places_each_witness :
    ∃ g', AzureTemplate.copy_files cexFS [["a", "x.tf"]] ["d"] [] = .ok g'
      ∧ ((lookupFile cexFS ["a", "x.tf"]).isSome
        ∧ lookupFile g' (AzureTemplate.copyTarget ["d"] [] ["a", "x.tf"])
            = lookupFile cexFS ["a", "x.tf"]) :=
  ⟨_, rfl, copy_files_places_each [["a", "x.tf"]] ["d"] [] cexFS _ (by decide) rfl
    ["a", "x.tf"] (by decide)⟩

/-! ### provision.py's simpler build_template never deletes -/

theorem provision_submodulesRun_spec (ts d : FPath) (g0 : FS) :
    ∀ (names : List FPath) (g g' : FS),
    (∀ sub ∈ names, ∀ f : String, d.isPrefixOf (ts ++ sub ++ [f]) = false) →
    filterNotUnder g.files d = filterNotUnder g0.files d →
    Provision.submodulesRun g names ts d = .ok g' →
    (filterNotUnder g'.files d = filterNotUnder g0.files d
     ∧ (∀ q : FPath, (∀ sub ∈ names, ∀ s ∈ glob g0 (ts ++ sub) "tf",
          q ≠ d ++ sub ++ [basename s]) → lookupFile g' q = lookupFile g q)
     ∧ (∀ q : FPath, (lookupFile g q).isSome → (lookupFile g' q).isSome)) := by
  intro names
  induction names with
  | nil =>
    intro g g' _ hOut h
    cases h
    exact ⟨hOut, fun q _ => rfl, fun q hs => hs⟩
  | cons sub rest ih =>
    intro g g' hdisj hOut h
    rw [Provision.submodulesRun, except_bind_ok] at h
    obtain ⟨g1, h1, h⟩ := h
    rw [except_bind_ok] at h
    obtain ⟨g2, h2, h3⟩ := h
    have hfiles1 : g1.files = g.files := makedirs_ok_files g (d ++ sub) g1 h1
    have hOut1 : filterNotUnder g1.files d = filterNotUnder g0.files d := by
      unfold filterNotUnder
      rw [hfiles1]
      exact hOut
    have hglob1 : glob g1 (ts ++ sub) "tf" = glob g0 (ts ++ sub) "tf" :=
      glob_eq_of_filter_eq g1 g0 d (ts ++ sub) "tf" hOut1 (hdisj sub (List.mem_cons_self _ _))
    rw [copySubmodule_eq_foldCopy, hglob1] at h2
    have hunder2 : ∀ pr ∈ (glob g0 (ts ++ sub) "tf").map
        (fun p => (ts ++ sub ++ [basename p], d ++ sub ++ [basename p])),
        d.isPrefixOf pr.2 = true := by
      intro pr hpr
      obtain ⟨s, _, he⟩ := List.mem_map.mp hpr
      rw [← he]
      simp only []
      rw [List.append_assoc]
      exact isPrefixOf_append d (sub ++ [basename s])
    have hOut2 : filterNotUnder g2.files d = filterNotUnder g0.files d := by
      rw [foldCopy_ok_filter _ d g1 g2 h2 hunder2]
      exact hOut1
    obtain ⟨rfil, rframe, rmono⟩ :=
      ih g2 g' (fun x hx => hdisj x (List.mem_cons_of_mem _ hx)) hOut2 h3
    refine ⟨rfil, ?_, ?_⟩
    · intro q hq
      have hq2 : ∀ pr ∈ (glob g0 (ts ++ sub) "tf").map
          (fun p => (ts ++ sub ++ [basename p], d ++ sub ++ [basename p])), q ≠ pr.2 := by
        intro pr hpr
        obtain ⟨s, hs, he⟩ := List.mem_map.mp hpr
        rw [← he]
        exact hq sub (List.mem_cons_self _ _) s hs
      rw [rframe q (fun x hx s hs => hq x (List.mem_cons_of_mem _ hx) s hs),
        foldCopy_ok_frame _ g1 g2 h2 q hq2]
      unfold lookupFile
      rw [hfiles1]
    · intro q hs
      refine rmono q (foldCopy_ok_isSome _ g1 g2 h2 q ?_)
      unfold lookupFile
      rw [hfiles1]
      exact hs

theorem provision_coreRun_ok_decomp (config : Provision.TemplateVariables) (ts d : FPath)
    (g g' : FS) (h : Provision.coreRun config ts d g = .ok g') :
    ∃ g1 g2 g3 g4,
      makedirs g d = .ok g1
      ∧ AzureTemplate.copyMainFiles g1 AzureTemplate.main_module_filenames ts d = .ok g2
      ∧ Provision.copyRootTfFiles g2 (glob g2 ts "tf") d = .ok g3
      ∧ Provision.submodulesRun g3 Provision.SUBMODULE_NAMES ts d = .ok g4
      ∧ writeFile g4 (d ++ [AzureTemplate.tfvarsName])
          (AzureTemplate.jsonDump config.asdict) = .ok g' := by
  rw [Provision.coreRun, except_bind_ok] at h
  obtain ⟨g1, h1, h⟩ := h
  rw [except_bind_ok] at h
  obtain ⟨g2, h2, h⟩ := h
  rw [except_bind_ok] at h
  obtain ⟨g3, h3, h⟩ := h
  rw [except_bind_ok] at h
  obtain ⟨g4, h4, h5⟩ := h
  exact ⟨g1, g2, g3, g4, h1, h2, h3, h4, h5⟩

theorem provision_build_template_ok (config : Provision.TemplateVariables) (ts d : FPath)
    (g g' : FS) (h : Provision.build_template config ts d g = .ok g') :
    Provision.coreRun config ts d g = .ok g' := by
  unfold Provision.build_template at h
  cases hc : Provision.coreRun config ts d g with
  | error e =>
    rw [hc] at h
    cases e <;> cases h
  | ok gg =>
    rw [hc] at h
    injection h with h
    rw [h]

/-- **C10**: provision.py's simpler `build_template` never deletes any
file: every pre-existing file keeps at least a file at its path, and every
pre-existing file under the destination whose basename is not among the
copied filenames and is not `terraform.tfvars.json` survives with its
exact content — stale files from a previous materialization persist. -/
theorem provision_never_deletes (config : Provision.TemplateVariables)
    (template_src destination : FPath) (g g' : FS)
    (hsep1 : template_src.isPrefixOf destination = false)
    (hsep2 : destination.isPrefixOf template_src = false)
    (hok : Provision.build_template config template_src destination g = .ok g')
    (p : FPath) (c : String) (hpre : lookupFile g p = some c)
    (hunder : destination.isPrefixOf p = true)
    (hname : basename p ∉ Provision.copiedFilenames g template_src)
    (htf : basename p ≠ AzureTemplate.tfvarsName) :
    (∀ q : FPath, (lookupFile g q).isSome → (lookupFile g' q).isSome)
    ∧ lookupFile g' p = some c := by
  have hc := provision_build_template_ok config template_src destination g g' hok
  obtain ⟨g1, g2, g3, g4, h1, h2, h3, h4, h5⟩ :=
    provision_coreRun_ok_decomp config template_src destination g g' hc
  have hfiles1 : g1.files = g.files := makedirs_ok_files g destination g1 h1
  have hOut1 : filterNotUnder g1.files destination = filterNotUnder g.files destination := by
    unfold filterNotUnder
    rw [hfiles1]
  rw [copyMainFiles_eq_foldCopy] at h2
  have hmainunder : ∀ pr ∈ AzureTemplate.main_module_filenames.map
      (fun n => (template_src ++ [n], destination ++ [n])),
      destination.isPrefixOf pr.2 = true := by
    intro pr hpr
    obtain ⟨n, _, he⟩ := List.mem_map.mp hpr
    rw [← he]
    exact isPrefixOf_append destination [n]
  have hOut2 : filterNotUnder g2.files destination = filterNotUnder g.files destination := by
    rw [foldCopy_ok_filter _ destination g1 g2 h2 hmainunder]
    exact hOut1
  have hglob2 : glob g2 template_src "tf" = glob g template_src "tf" :=
    glob_eq_of_filter_eq g2 g destination template_src "tf" hOut2
      (fun f => sep_not_under template_src destination hsep1 hsep2 [f])
  rw [copyRootTf_eq_foldCopy, hglob2] at h3
  have hrootunder : ∀ pr ∈ (glob g template_src "tf").map
      (fun s => (s, destination ++ [basename s])),
      destination.isPrefixOf pr.2 = true := by
    intro pr hpr
    obtain ⟨s, _, he⟩ := List.mem_map.mp hpr
    rw [← he]
    exact isPrefixOf_append destination [basename s]
  have hOut3 : filterNotUnder g3.files destination = filterNotUnder g.files destination := by
    rw [foldCopy_ok_filter _ destination g2 g3 h3 hrootunder]
    exact hOut2
  have hdisj : ∀ sub ∈ Provision.SUBMODULE_NAMES, ∀ f : String,
      destination.isPrefixOf (template_src ++ sub ++ [f]) = false := by
    intro sub _ f
    have hs := sep_not_under template_src destination hsep1 hsep2 (sub ++ [f])
    rwa [← List.append_assoc] at hs
  obtain ⟨sfil, sframe, smono⟩ :=
    provision_submodulesRun_spec template_src destination g Provision.SUBMODULE_NAMES
      g3 g4 hdisj hOut3 h4
  -- name-based disequalities from `hname`
  simp only [Provision.copiedFilenames, List.mem_append, List.mem_map, List.mem_flatMap,
    not_or] at hname
  push_neg at hname
  obtain ⟨⟨hn1, hn2⟩, hn3⟩ := hname
  have hfr2 : ∀ pr ∈ AzureTemplate.main_module_filenames.map
      (fun n => (template_src ++ [n], destination ++ [n])), p ≠ pr.2 := by
    intro pr hpr
    obtain ⟨n, hn, he⟩ := List.mem_map.mp hpr
    rw [← he]
    refine ne_of_basename_ne p (destination ++ [n]) ?_
    rw [basename_append]
    intro hb
    refine hn1 ?_
    rw [hb]
    exact hn
  have hfr3 : ∀ pr ∈ (glob g template_src "tf").map
      (fun s => (s, destination ++ [basename s])), p ≠ pr.2 := by
    intro pr hpr
    obtain ⟨s, hs, he⟩ := List.mem_map.mp hpr
    rw [← he]
    refine ne_of_basename_ne p (destination ++ [basename s]) ?_
    rw [basename_append]
    intro hb
    exact hn2 s hs hb.symm
  have hfr4 : ∀ sub ∈ Provision.SUBMODULE_NAMES, ∀ s ∈ glob g (template_src ++ sub) "tf",
      p ≠ destination ++ sub ++ [basename s] := by
    intro sub hsub s hs
    refine ne_of_basename_ne p (destination ++ sub ++ [basename s]) ?_
    rw [basename_append]
    intro hb
    exact hn3 sub hsub s hs hb.symm
  have hfr5 : p ≠ destination ++ [AzureTemplate.tfvarsName] := by
    refine ne_of_basename_ne p (destination ++ [AzureTemplate.tfvarsName]) ?_
    rw [basename_append]
    exact htf
  constructor
  · intro q hs
    refine writeFile_ok_isSome g4 _ _ g' h5 q ?_
    refine smono q (foldCopy_ok_isSome _ g2 g3 h3 q (foldCopy_ok_isSome _ g1 g2 h2 q ?_))
    unfold lookupFile
    rw [hfiles1]
    exact hs
  · rw [writeFile_ok_lookup_other g4 _ _ g' h5 p hfr5, sframe p hfr4,
      foldCopy_ok_frame _ g2 g3 h3 p hfr3, foldCopy_ok_frame _ g1 g2 h2 p hfr2]
    unfold lookupFile
    rw [hfiles1]
    exact hpre

/-- Witness: the stale file `d/stale.txt` survives a concrete provision.py
run with its exact content. -/
theorem provision_never_deletes_witness :
    ∃ g', Provision.build_template { location := "uksouth", pfx := "matcha" } ["t"] ["d"]
        fixtureFSWithDest = .ok g'
      ∧ lookupFile g' ["d", "stale.txt"] = some "old junk" :=
  ⟨_, rfl, (provision_never_deletes { location := "uksouth", pfx := "matcha" } ["t"] ["d"]
    fixtureFSWithDest _ (by decide) (by decide) rfl ["d", "stale.txt"] "old junk"
    (by decide) (by decide) (by decide) (by decide)).2⟩
